import Mathlib

set_option maxRecDepth 16000

/-!
Verification development for the OneControl BLE gateway driver
(`custom_components/ha_onecontrol` and `custom_components/onecontrol`).

The Python sources are shallowly embedded: bytes are `Nat` below 256,
byte strings are `List Nat`, machine arithmetic is explicit masking,
fallible code returns `Except Unit` or `Option`, and stateful code is
explicit state passing.  Timestamps (Python `time.monotonic()` floats)
are embedded as `ℚ`; the constants involved (5.0, 8.0, 20.0, 70.0,
120.0) are all exactly representable, so comparisons agree.
-/

namespace OneControl

/-! ## CRC8 (`protocol/crc8.py`)

Modelled from the spec: the module `protocol/crc8.py` is imported by
`protocol/cobs.py` and by the tests but is absent from the source tree.
Per the spec (§4.1), it is a byte-wise CRC over a 256-entry lookup
table with polynomial 0x07, `init = 0x55`, and the update rule
`crc = table[(crc ^ b) & 0xFF]`.  The table entry for index `i` is the
MSB-first CRC step: eight iterations of shift-left-and-conditionally-xor
with 0x07. -/

/-- One MSB-first CRC-8 bit step for polynomial 0x07. -/
def crcBitStep (x : Nat) : Nat :=
  if x &&& 0x80 ≠ 0 then ((x <<< 1) ^^^ 0x07) &&& 0xFF else (x <<< 1) &&& 0xFF

/-- Modelled from the spec: the 256-entry lookup table `_TABLE` of the
missing `protocol/crc8.py`, as a function: the CRC-8/0x07 step applied
to a byte (eight bit steps). -/
def crcTable (i : Nat) : Nat :=
  crcBitStep (crcBitStep (crcBitStep (crcBitStep
    (crcBitStep (crcBitStep (crcBitStep (crcBitStep i)))))))

/-- Modelled from the spec: `crc8(data, init)` of the missing
`protocol/crc8.py` — fold the table update `crc = table[(crc ^ b) & 0xFF]`
over the data, starting from `init` (0x55 at every call site used here). -/
def crc8 (data : List Nat) (init : Nat) : Nat :=
  data.foldl (fun c b => crcTable ((c ^^^ b) &&& 0xFF)) init

/-- The single-byte update `_crc_update` used inline by the COBS encoder
(`cobs.py:160`). -/
def crc_update (c b : Nat) : Nat :=
  crcTable ((c ^^^ b) &&& 0xFF)

/-- The inverse of `crcTable` as a literal table (the CRC-8/0x07 step is a
bijection on bytes; this is used only to prove injectivity). -/
def crcTableInv : List Nat :=
  [0x00, 0xd9, 0xb5, 0x6c, 0x6d, 0xb4, 0xd8, 0x01, 0xda, 0x03, 0x6f, 0xb6, 0xb7, 0x6e, 0x02, 0xdb,
   0xb3, 0x6a, 0x06, 0xdf, 0xde, 0x07, 0x6b, 0xb2, 0x69, 0xb0, 0xdc, 0x05, 0x04, 0xdd, 0xb1, 0x68,
   0x61, 0xb8, 0xd4, 0x0d, 0x0c, 0xd5, 0xb9, 0x60, 0xbb, 0x62, 0x0e, 0xd7, 0xd6, 0x0f, 0x63, 0xba,
   0xd2, 0x0b, 0x67, 0xbe, 0xbf, 0x66, 0x0a, 0xd3, 0x08, 0xd1, 0xbd, 0x64, 0x65, 0xbc, 0xd0, 0x09,
   0xc2, 0x1b, 0x77, 0xae, 0xaf, 0x76, 0x1a, 0xc3, 0x18, 0xc1, 0xad, 0x74, 0x75, 0xac, 0xc0, 0x19,
   0x71, 0xa8, 0xc4, 0x1d, 0x1c, 0xc5, 0xa9, 0x70, 0xab, 0x72, 0x1e, 0xc7, 0xc6, 0x1f, 0x73, 0xaa,
   0xa3, 0x7a, 0x16, 0xcf, 0xce, 0x17, 0x7b, 0xa2, 0x79, 0xa0, 0xcc, 0x15, 0x14, 0xcd, 0xa1, 0x78,
   0x10, 0xc9, 0xa5, 0x7c, 0x7d, 0xa4, 0xc8, 0x11, 0xca, 0x13, 0x7f, 0xa6, 0xa7, 0x7e, 0x12, 0xcb,
   0x83, 0x5a, 0x36, 0xef, 0xee, 0x37, 0x5b, 0x82, 0x59, 0x80, 0xec, 0x35, 0x34, 0xed, 0x81, 0x58,
   0x30, 0xe9, 0x85, 0x5c, 0x5d, 0x84, 0xe8, 0x31, 0xea, 0x33, 0x5f, 0x86, 0x87, 0x5e, 0x32, 0xeb,
   0xe2, 0x3b, 0x57, 0x8e, 0x8f, 0x56, 0x3a, 0xe3, 0x38, 0xe1, 0x8d, 0x54, 0x55, 0x8c, 0xe0, 0x39,
   0x51, 0x88, 0xe4, 0x3d, 0x3c, 0xe5, 0x89, 0x50, 0x8b, 0x52, 0x3e, 0xe7, 0xe6, 0x3f, 0x53, 0x8a,
   0x41, 0x98, 0xf4, 0x2d, 0x2c, 0xf5, 0x99, 0x40, 0x9b, 0x42, 0x2e, 0xf7, 0xf6, 0x2f, 0x43, 0x9a,
   0xf2, 0x2b, 0x47, 0x9e, 0x9f, 0x46, 0x2a, 0xf3, 0x28, 0xf1, 0x9d, 0x44, 0x45, 0x9c, 0xf0, 0x29,
   0x20, 0xf9, 0x95, 0x4c, 0x4d, 0x94, 0xf8, 0x21, 0xfa, 0x23, 0x4f, 0x96, 0x97, 0x4e, 0x22, 0xfb,
   0x93, 0x4a, 0x26, 0xff, 0xfe, 0x27, 0x4b, 0x92, 0x49, 0x90, 0xfc, 0x25, 0x24, 0xfd, 0x91, 0x48]

/-! ## COBS codec (`ha_onecontrol/protocol/cobs.py`)

Frame delimiter 0x00, `MAX_DATA_BYTES = 63`, `FRAME_BYTE_COUNT_LSB = 64`,
`MAX_COMPRESSED_FRAME_BYTES = 192`, buffer cap `MAX_BUFFER = 382`. -/

def FRAME_CHAR : Nat := 0x00

def MAX_DATA_BYTES : Nat := 63

def FRAME_BYTE_COUNT_LSB : Nat := 64

def MAX_COMPRESSED_FRAME_BYTES : Nat := 192

def MAX_BUFFER : Nat := 382

/-! ### Encoder (`cobs_encode`, cobs.py:86-151)

The Python encoder walks `src_idx` over `total = len(data) + 1` virtual
source bytes: the data itself followed by one CRC byte.  Its running
`crc_val` is only ever emitted at the position `src_idx == src_len`, by
which point it equals `crc8(data, 0x55)`; so the walk is equivalently a
pure block decomposition of `ext = data ++ [crc8 data 0x55]`.  The inner
`while` loops become `takeNonZero` (non-zero bytes, at most 63 per the
`code >= MAX_DATA_BYTES` break) and `takeZeros` (zero-run compression:
`code += 64` per zero, breaking once `code >= 192`). -/

/-- The encoder's inner non-zero loop: take up to `k` leading non-zero
bytes (cobs.py:115-133). -/
def takeNonZero : Nat → List Nat → List Nat × List Nat
  | _, [] => ([], [])
  | 0, l => ([], l)
  | k + 1, b :: t =>
    if b = FRAME_CHAR then ([], b :: t)
    else
      let p := takeNonZero k t
      (b :: p.1, p.2)

/-- The encoder's zero-compression loop (cobs.py:135-145): starting from
`code`, consume leading zeros adding `FRAME_BYTE_COUNT_LSB` each, breaking
once `code ≥ MAX_COMPRESSED_FRAME_BYTES`.  Returns the final `code` and the
unconsumed remainder. -/
def takeZeros : List Nat → Nat → Nat × List Nat
  | [], code => (code, [])
  | b :: t, code =>
    if b ≠ FRAME_CHAR then (code, b :: t)
    else
      let code' := code + FRAME_BYTE_COUNT_LSB
      if MAX_COMPRESSED_FRAME_BYTES ≤ code' then (code', t)
      else takeZeros t code'

/-- The encoder's outer block loop (cobs.py:108-147), with explicit fuel
(every iteration consumes at least one source byte, so fuel
`src.length` suffices; see `encodeBlocksF_fuel`). -/
def encodeBlocksF : Nat → List Nat → List Nat
  | 0, _ => []
  | _, [] => []
  | fuel + 1, b :: t =>
    let p1 := takeNonZero MAX_DATA_BYTES (b :: t)
    let p2 := takeZeros p1.2 p1.1.length
    (p2.1 &&& 0xFF) :: p1.1 ++ encodeBlocksF fuel p2.2

/-- One-shot COBS encoder `cobs_encode(data, prepend_start, use_crc)`
(cobs.py:86-151).  The Python function writes into a 382-byte buffer and
raises on overflow; this list model coincides with it whenever the frame
fits (all claims below bound the payload at 320 bytes, well inside the
buffer — see `cobs_encode_length`). -/
def cobs_encode (data : List Nat) (prepend_start use_crc : Bool) : List Nat :=
  (if prepend_start then [FRAME_CHAR] else []) ++
    (if data = [] then [FRAME_CHAR]
     else
       let ext := data ++ (if use_crc then [crc8 data 0x55] else [])
       encodeBlocksF ext.length ext ++ [FRAME_CHAR])

/-! ### Decoder (`CobsByteDecoder`, cobs.py:22-83) -/

/-- Decoder state: `buf` models `self._buf[:self._dst]` and `code`
models `self._code` (which never goes negative: the implicit-zero loop
only runs when `code` is a multiple of 64 and subtracts 64 at a time). -/
structure CobsByteDecoder where
  use_crc : Bool
  buf : List Nat
  code : Nat

/-- Fresh decoder (`__init__`, cobs.py:30-35). -/
def CobsByteDecoder.mk0 (use_crc : Bool) : CobsByteDecoder :=
  { use_crc := use_crc, buf := [], code := 0 }

/-- `min_payload` (cobs.py:32). -/
def CobsByteDecoder.min_payload (d : CobsByteDecoder) : Nat :=
  if d.use_crc then 1 else 0

/-- `reset()` (cobs.py:37-39). -/
def CobsByteDecoder.reset (d : CobsByteDecoder) : CobsByteDecoder :=
  { d with buf := [], code := 0 }

/-- The implicit-zero insertion loop (cobs.py:76-81) with explicit fuel:
while `code > 0`, append 0x00 (respecting the buffer cap) and subtract 64.
Each iteration strictly decreases `code`, so fuel `code` suffices. -/
def insertZerosF : Nat → Nat → List Nat → List Nat
  | 0, _, buf => buf
  | fuel + 1, code, buf =>
    if code = 0 then buf
    else insertZerosF fuel (code - FRAME_BYTE_COUNT_LSB)
      (if buf.length < MAX_BUFFER then buf ++ [FRAME_CHAR] else buf)

/-- The implicit-zero insertion loop (cobs.py:76-81). -/
def insertZeros (code : Nat) (buf : List Nat) : List Nat :=
  insertZerosF code code buf

/-- `decode_byte(b)` (cobs.py:41-83): process a single byte, returning the
new state and the completed frame, if any. -/
def CobsByteDecoder.decode_byte (d : CobsByteDecoder) (b0 : Nat) :
    CobsByteDecoder × Option (List Nat) :=
  let b := b0 &&& 0xFF
  if b = FRAME_CHAR then
    if d.code ≠ 0 then (d.reset, none)
    else if d.buf.length ≤ d.min_payload then (d.reset, none)
    else if d.use_crc then
      let received_crc := d.buf.getLast?.getD 0
      let payload := d.buf.dropLast
      if crc8 payload 0x55 ≠ received_crc then (d.reset, none)
      else (d.reset, some payload)
    else (d.reset, some d.buf)
  else
    let d' :=
      if d.code = 0 then { d with code := b }
      else
        { d with
          code := d.code - 1,
          buf := if d.buf.length < MAX_BUFFER then d.buf ++ [b] else d.buf }
    if d'.code &&& MAX_DATA_BYTES = 0 then
      ({ d' with buf := insertZeros d'.code d'.buf, code := 0 }, none)
    else (d', none)

/-- Run the decoder over a byte list, keeping only the final state. -/
def decodeRun (d : CobsByteDecoder) : List Nat → CobsByteDecoder
  | [] => d
  | b :: t => decodeRun (d.decode_byte b).1 t

/-- Run the decoder over a byte list, collecting the per-byte results. -/
def decodeOutputs (d : CobsByteDecoder) : List Nat → List (Option (List Nat))
  | [] => []
  | b :: t => (d.decode_byte b).2 :: decodeOutputs (d.decode_byte b).1 t

/-! ## TEA cipher (`ha_onecontrol/protocol/tea.py`)

The proprietary constants are stored obfuscated in `tea.py` (a base64
blob XOR-masked with `0xC7D2E1F0`, decoded at module load); the values
below are the decoded constants. `TEA_DELTA` and `TEA_ROUNDS` come from
`const.py`. -/

def MASK32 : Nat := 0xFFFFFFFF

def TEA_DELTA : Nat := 0x9E3779B9

def TEA_ROUNDS : Nat := 32

def TEA_CONSTANT_1 : Nat := 0x436f7079

def TEA_CONSTANT_2 : Nat := 0x72696768

def TEA_CONSTANT_3 : Nat := 0x74204944

def TEA_CONSTANT_4 : Nat := 0x53736e63

def STEP1_CIPHER : Nat := 0x248431d5

def STEP2_CIPHER : Nat := 0x8100080d

/-- One iteration of the `tea_encrypt` loop (tea.py:52-55), on the state
`(c, s, delta)`. -/
def tea_round (st : Nat × Nat × Nat) : Nat × Nat × Nat :=
  let c := st.1
  let s := st.2.1
  let delta := st.2.2
  let s' := (s + (((c <<< 4) + TEA_CONSTANT_1) ^^^ (c + delta) ^^^
    ((c >>> 5) + TEA_CONSTANT_2))) &&& MASK32
  let c' := (c + (((s' <<< 4) + TEA_CONSTANT_3) ^^^ (s' + delta) ^^^
    ((s' >>> 5) + TEA_CONSTANT_4))) &&& MASK32
  (c', s', (delta + TEA_DELTA) &&& MASK32)

def tea_loop : Nat → Nat × Nat × Nat → Nat × Nat × Nat
  | 0, st => st
  | n + 1, st => tea_loop n (tea_round st)

/-- `tea_encrypt(cipher, seed)` (tea.py:46-57): run 32 rounds and return
the evolved seed half. -/
def tea_encrypt (cipher seed : Nat) : Nat :=
  (tea_loop TEA_ROUNDS (cipher &&& MASK32, seed &&& MASK32, TEA_DELTA)).2.1

/-- Little-endian u32 of a 4-byte string (`struct.unpack("<I", ...)`). -/
def le32 (l : List Nat) : Nat :=
  l.getD 0 0 + l.getD 1 0 * 256 + l.getD 2 0 * 65536 + l.getD 3 0 * 16777216

/-- Little-endian 4-byte encoding of a u32 (`struct.pack("<I", ...)`). -/
def le_bytes4 (n : Nat) : List Nat :=
  [n % 256, n / 256 % 256, n / 65536 % 256, n / 16777216 % 256]

/-- `calculate_step2_key(seed_bytes, pin)` (tea.py:93-116).  The Python
function raises `ValueError` unless the seed is exactly 4 bytes (modelled
as `none`); the PIN is taken as its ASCII byte string.  The 16-byte key is
built as `pack_into("<I", key, 0, encrypted)` on a zeroed buffer followed
by the slice assignment `key[4:4+len(pin_bytes)] = pin_bytes`. -/
def calculate_step2_key (seed_bytes pin : List Nat) : Option (List Nat) :=
  if seed_bytes.length ≠ 4 then none
  else
    let seed := le32 seed_bytes
    let encrypted := tea_encrypt STEP2_CIPHER seed
    let key0 := le_bytes4 (encrypted &&& MASK32) ++ List.replicate 12 0
    let pin_bytes := pin.take 6
    some (key0.take 4 ++ pin_bytes ++ key0.drop (4 + pin_bytes.length))

/-! ## Event parsers (`onecontrol/protocol/events.py`)

Byte access `data[i]` raises `IndexError` in Python when out of bounds;
it is modelled as `getB` in `Except Unit`, so a parser's result is `ok`
exactly when every access it performs is in bounds.  Python `None` and
empty-list results ("absent") live inside `ok`. -/

def getB (d : List Nat) (i : Nat) : Except Unit Nat :=
  match d.get? i with
  | some b => Except.ok b
  | none => Except.error ()

structure GatewayInformation where
  protocol_version : Nat
  options : Nat
  device_count : Nat
  table_id : Nat
deriving DecidableEq

structure RvStatus where
  voltage : Option ℚ
  temperature : Option ℚ
  feature_flags : Nat
deriving DecidableEq

structure RelayStatus where
  table_id : Nat
  device_id : Nat
  is_on : Bool
  status_byte : Nat
  dtc_code : Nat
deriving DecidableEq

structure DeviceOnline where
  table_id : Nat
  device_id : Nat
  is_online : Bool
deriving DecidableEq

structure SystemLockout where
  lockout_level : Nat
  table_id : Nat
  device_count : Nat
  per_device_locked : Option (List (Nat × Bool))
deriving DecidableEq

structure DeviceLock where
  table_id : Nat
  device_id : Nat
  is_locked : Bool
deriving DecidableEq

structure TankLevel where
  table_id : Nat
  device_id : Nat
  level : Nat
deriving DecidableEq

structure DimmableLight where
  table_id : Nat
  device_id : Nat
  brightness : Nat
  mode : Nat
deriving DecidableEq

structure RgbLight where
  table_id : Nat
  device_id : Nat
  mode : Nat
  red : Nat
  green : Nat
  blue : Nat
  brightness : Nat
deriving DecidableEq

structure HvacZone where
  table_id : Nat
  device_id : Nat
  heat_mode : Nat
  heat_source : Nat
  fan_mode : Nat
  low_trip_f : Nat
  high_trip_f : Nat
  zone_status : Nat
  indoor_temp_f : Option ℚ
  outdoor_temp_f : Option ℚ
  dtc_code : Nat
deriving DecidableEq

structure CoverStatus where
  table_id : Nat
  device_id : Nat
  status : Nat
  position : Option Nat
deriving DecidableEq

structure RealTimeClock where
  year : Nat
  month : Nat
  day : Nat
  hour : Nat
  minute : Nat
  second : Nat
  weekday : Nat
deriving DecidableEq

structure HourMeter where
  table_id : Nat
  device_id : Nat
  hours : ℚ
deriving DecidableEq

structure GeneratorStatus where
  table_id : Nat
  device_id : Nat
  is_running : Bool
deriving DecidableEq

structure DeviceMetadata where
  table_id : Nat
  device_id : Nat
  function_name : Nat
  function_instance : Nat
deriving DecidableEq

/-- The dynamic return type of `parse_event` (dataclass, `None`, list, or
raw bytes) as a tagged sum. -/
inductive ParseResult where
  | none
  | gatewayInformation (g : GatewayInformation)
  | rvStatus (r : RvStatus)
  | relayStatus (r : RelayStatus)
  | deviceOnline (d : DeviceOnline)
  | systemLockout (s : SystemLockout)
  | deviceLock (d : DeviceLock)
  | tankLevels (l : List TankLevel)
  | tankLevel (t : TankLevel)
  | dimmableLight (d : DimmableLight)
  | rgbLight (r : RgbLight)
  | generatorStatus (g : GeneratorStatus)
  | hvacZones (l : List HvacZone)
  | coverStatus (c : CoverStatus)
  | hourMeter (h : HourMeter)
  | realTimeClock (r : RealTimeClock)
  | metadata (l : List DeviceMetadata)
  | raw (d : List Nat)
deriving DecidableEq

/-- `parse_gateway_information` (events.py:241-249).  Note: only the four
header fields are parsed; the dataclass has no CRC fields. -/
def parse_gateway_information (d : List Nat) : Except Unit (Option GatewayInformation) :=
  if d.length < 5 then Except.ok none
  else do
    let b1 ← getB d 1
    let b2 ← getB d 2
    let b3 ← getB d 3
    let b4 ← getB d 4
    return some ⟨b1, b2, b3, b4⟩

/-- `parse_rv_status` (events.py:252-270).  `0x7FFF` is a sentinel for the
temperature only; the voltage checks only `0xFFFF`. -/
def parse_rv_status (d : List Nat) : Except Unit (Option RvStatus) :=
  if d.length < 6 then Except.ok none
  else do
    let b1 ← getB d 1
    let b2 ← getB d 2
    let b3 ← getB d 3
    let b4 ← getB d 4
    let b5 ← getB d 5
    let v_raw := (b1 <<< 8) ||| b2
    let t_raw := (b3 <<< 8) ||| b4
    let voltage : Option ℚ := if v_raw = 0xFFFF then none else some ((v_raw : ℚ) / 256)
    let temperature : Option ℚ :=
      if t_raw = 0xFFFF ∨ t_raw = 0x7FFF then none else some ((t_raw : ℚ) / 256)
    return some ⟨voltage, temperature, b5⟩

/-- `parse_relay_status` (events.py:273-293). -/
def parse_relay_status (d : List Nat) : Except Unit (Option RelayStatus) :=
  if d.length < 5 then Except.ok none
  else do
    let b1 ← getB d 1
    let b2 ← getB d 2
    let b3 ← getB d 3
    let status_byte := b3 &&& 0xFF
    let is_on := (status_byte &&& 0x0F) == 0x01
    let dtc ← if 9 ≤ d.length then do
        let b5 ← getB d 5
        let b6 ← getB d 6
        pure ((b5 <<< 8) ||| b6)
      else pure 0
    return some ⟨b1, b2, is_on, status_byte, dtc⟩

/-- `parse_device_online` (events.py:296-304). -/
def parse_device_online (d : List Nat) : Except Unit (Option DeviceOnline) :=
  if d.length < 4 then Except.ok none
  else do
    let b1 ← getB d 1
    let b2 ← getB d 2
    let b3 ← getB d 3
    return some ⟨b1, b2, b3 ≠ 0xFF⟩

/-- The per-device bitfield loop of `parse_device_lock` (events.py:326-329):
entries for `idx` running over the `rem` remaining device indices. -/
def lockBits (d : List Nat) : Nat → Nat → Except Unit (List (Nat × Bool))
  | _, 0 => Except.ok []
  | idx, rem + 1 => do
    let status_byte ← getB d (8 + idx / 8)
    let bit := (status_byte &&& 0xFF) &&& (1 <<< (idx % 8)) ≠ 0
    let rest ← lockBits d (idx + 1) rem
    return (idx, bit) :: rest

/-- `parse_device_lock` (events.py:307-342): bitfield (≥ 8 bytes) or
legacy single-device form. -/
def parse_device_lock (d : List Nat) :
    Except Unit (Option (SystemLockout ⊕ DeviceLock)) :=
  if d.length < 4 then Except.ok none
  else if 8 ≤ d.length then do
    let b1 ← getB d 1
    let b6 ← getB d 6
    let b7 ← getB d 7
    let lockout_level := b1 &&& 0xFF
    let table_id := b6 &&& 0xFF
    let device_count := b7 &&& 0xFF
    let lock_byte_count := (device_count + 7) / 8
    let per ← if 8 + lock_byte_count ≤ d.length then do
        let l ← lockBits d 0 device_count
        pure (some l)
      else pure none
    return some (Sum.inl ⟨lockout_level, table_id, device_count, per⟩)
  else do
    let b1 ← getB d 1
    let b2 ← getB d 2
    let b3 ← getB d 3
    return some (Sum.inr ⟨b1, b2, b3 ≠ 0⟩)

/-- The multi-tank loop of `parse_tank_status` (events.py:357-362), with
fuel (each iteration advances `idx` by 2). -/
def tankLoop (d : List Nat) (table_id : Nat) : Nat → Nat → Except Unit (List TankLevel)
  | _, 0 => Except.ok []
  | idx, fuel + 1 =>
    if idx + 1 < d.length then do
      let dev ← getB d idx
      let lvl ← getB d (idx + 1)
      let rest ← tankLoop d table_id (idx + 2) fuel
      return ⟨table_id, dev, lvl⟩ :: rest
    else Except.ok []

/-- `parse_tank_status` (events.py:345-362). -/
def parse_tank_status (d : List Nat) : Except Unit (List TankLevel) :=
  if d.length < 4 then Except.ok []
  else do
    let b1 ← getB d 1
    tankLoop d b1 2 d.length

/-- `parse_tank_status_v2` (events.py:365-369). -/
def parse_tank_status_v2 (d : List Nat) : Except Unit (Option TankLevel) :=
  if d.length < 4 then Except.ok none
  else do
    let b1 ← getB d 1
    let b2 ← getB d 2
    let b3 ← getB d 3
    return some ⟨b1, b2, b3⟩

/-- `parse_dimmable_light` (events.py:372-388). -/
def parse_dimmable_light (d : List Nat) : Except Unit (Option DimmableLight) :=
  if d.length < 5 then Except.ok none
  else do
    let b1 ← getB d 1
    let b2 ← getB d 2
    let mode ← getB d 3
    let brightness ← if 7 ≤ d.length then getB d 6 else getB d 4
    return some ⟨b1, b2, brightness, mode⟩

/-- `parse_rgb_light` (events.py:391-409). -/
def parse_rgb_light (d : List Nat) : Except Unit (Option RgbLight) :=
  if d.length < 5 then Except.ok none
  else do
    let b1 ← getB d 1
    let b2 ← getB d 2
    let mode ← getB d 3
    let r ← if 4 < d.length then getB d 4 else pure 0
    let g ← if 5 < d.length then getB d 5 else pure 0
    let b ← if 6 < d.length then getB d 6 else pure 0
    let bright ← if 7 < d.length then getB d 7 else pure 255
    return some ⟨b1, b2, mode, r, g, b, bright⟩

/-- `parse_generator_status` (events.py:412-420). -/
def parse_generator_status (d : List Nat) : Except Unit (Option GeneratorStatus) :=
  if d.length < 4 then Except.ok none
  else do
    let b1 ← getB d 1
    let b2 ← getB d 2
    let b3 ← getB d 3
    return some ⟨b1, b2, b3 ≠ 0⟩

/-- `_decode_temp_88` (events.py:423-431). -/
def decode_temp_88 (raw : Nat) : Option ℚ :=
  if raw = 0x8000 ∨ raw = 0x2FF0 ∨ raw = 0xFFFF then none
  else
    let signed : ℤ := if 0x8000 ≤ raw then (raw : ℤ) - 0x10000 else (raw : ℤ)
    some ((signed : ℚ) / 256)

/-- The per-zone loop of `parse_hvac_status` (events.py:448-473), with
fuel (each iteration advances `offset` by 11). -/
def hvacLoop (d : List Nat) (table_id : Nat) : Nat → Nat → Except Unit (List HvacZone)
  | _, 0 => Except.ok []
  | offset, fuel + 1 =>
    if offset + 11 ≤ d.length then do
      let dev ← getB d offset
      let cmd ← getB d (offset + 1)
      let low_f ← getB d (offset + 2)
      let high_f ← getB d (offset + 3)
      let status ← getB d (offset + 4)
      let i1 ← getB d (offset + 5)
      let i2 ← getB d (offset + 6)
      let o1 ← getB d (offset + 7)
      let o2 ← getB d (offset + 8)
      let t1 ← getB d (offset + 9)
      let t2 ← getB d (offset + 10)
      let rest ← hvacLoop d table_id (offset + 11) fuel
      return { table_id := table_id, device_id := dev,
               heat_mode := cmd &&& 0x07,
               heat_source := (cmd >>> 4) &&& 0x03,
               fan_mode := (cmd >>> 6) &&& 0x03,
               low_trip_f := low_f, high_trip_f := high_f,
               zone_status := status &&& 0x8F,
               indoor_temp_f := decode_temp_88 ((i1 <<< 8) ||| i2),
               outdoor_temp_f := decode_temp_88 ((o1 <<< 8) ||| o2),
               dtc_code := (t1 <<< 8) ||| t2 } :: rest
    else Except.ok []

/-- `parse_hvac_status` (events.py:434-474). -/
def parse_hvac_status (d : List Nat) : Except Unit (List HvacZone) :=
  if d.length < 4 then Except.ok []
  else do
    let b1 ← getB d 1
    hvacLoop d b1 2 d.length

/-- `parse_cover_status` (events.py:477-494). -/
def parse_cover_status (d : List Nat) : Except Unit (Option CoverStatus) :=
  if d.length < 4 then Except.ok none
  else do
    let b1 ← getB d 1
    let b2 ← getB d 2
    let b3 ← getB d 3
    let pos ← if 4 < d.length then do
        let p ← getB d 4
        pure (some p)
      else pure none
    let pos := match pos with
      | some 0xFF => none
      | p => p
    return some ⟨b1, b2, b3, pos⟩

/-- `parse_real_time_clock` (events.py:497-509). -/
def parse_real_time_clock (d : List Nat) : Except Unit (Option RealTimeClock) :=
  if d.length < 8 then Except.ok none
  else do
    let b1 ← getB d 1
    let b2 ← getB d 2
    let b3 ← getB d 3
    let b4 ← getB d 4
    let b5 ← getB d 5
    let b6 ← getB d 6
    let b7 ← getB d 7
    return some ⟨b1 + 2000, b2, b3, b4, b5, b6, b7⟩

/-- `parse_hour_meter` (events.py:512-522). -/
def parse_hour_meter (d : List Nat) : Except Unit (Option HourMeter) :=
  if d.length < 4 then Except.ok none
  else do
    let b1 ← getB d 1
    let b2 ← getB d 2
    let b3 ← getB d 3
    let hours_raw ← if 5 ≤ d.length then do
        let b4 ← getB d 4
        pure ((b3 <<< 8) ||| b4)
      else pure b3
    return some ⟨b1, b2, (hours_raw : ℚ) / 10⟩

/-- The entry loop of `parse_metadata_response` (events.py:545-571):
`rem` counts the remaining entries (`count - index`). -/
def metaLoop (d : List Nat) (table_id start_id : Nat) :
    Nat → Nat → Nat → Except Unit (List DeviceMetadata)
  | _, _, 0 => Except.ok []
  | offset, index, rem + 1 =>
    if offset + 2 < d.length then do
      let p ← getB d offset
      let psize ← getB d (offset + 1)
      let protocol := p &&& 0xFF
      let payload_size := psize &&& 0xFF
      if (protocol = 1 ∨ protocol = 2) ∧ payload_size = 17 ∧
          offset + 2 + payload_size ≤ d.length then do
        let func_hi ← getB d (offset + 2)
        let func_lo ← getB d (offset + 3)
        let inst ← getB d (offset + 4)
        let rest ← metaLoop d table_id start_id (offset + payload_size + 2) (index + 1) rem
        return { table_id := table_id, device_id := (start_id + index) &&& 0xFF,
                 function_name := ((func_hi &&& 0xFF) <<< 8) ||| (func_lo &&& 0xFF),
                 function_instance := inst &&& 0xFF } :: rest
      else metaLoop d table_id start_id (offset + payload_size + 2) (index + 1) rem
    else Except.ok []

/-- `parse_metadata_response` (events.py:525-573). -/
def parse_metadata_response (d : List Nat) : Except Unit (List DeviceMetadata) :=
  if d.length < 7 then Except.ok []
  else do
    let b4 ← getB d 4
    let b5 ← getB d 5
    let b6 ← getB d 6
    metaLoop d (b4 &&& 0xFF) (b5 &&& 0xFF) 7 0 (b6 &&& 0xFF)

/-- `parse_event` (events.py:579-623): dispatch on the first byte; unknown
types return the raw bytes; `SESSION_STATUS` (0x1A) returns `None`. -/
instance exceptDecEq {ε α : Type} [DecidableEq ε] [DecidableEq α] :
    DecidableEq (Except ε α) := fun a b =>
  match a, b with
  | .ok x, .ok y =>
    if h : x = y then isTrue (by rw [h]) else
      isFalse (fun hc => h (by injection hc))
  | .ok _, .error _ => isFalse (fun hc => Except.noConfusion hc)
  | .error _, .ok _ => isFalse (fun hc => Except.noConfusion hc)
  | .error x, .error y =>
    if h : x = y then isTrue (by rw [h]) else
      isFalse (fun hc => h (by injection hc))

def optR {α : Type} (f : α → ParseResult) : Option α → ParseResult
  | some a => f a
  | Option.none => ParseResult.none

def parse_event (d : List Nat) : Except Unit ParseResult :=
  match d.head? with
  | Option.none => Except.ok ParseResult.none
  | some event_type =>
    if event_type = 0x01 then (parse_gateway_information d).map (optR .gatewayInformation)
    else if event_type = 0x07 then (parse_rv_status d).map (optR .rvStatus)
    else if event_type = 0x05 ∨ event_type = 0x06 then
      (parse_relay_status d).map (optR .relayStatus)
    else if event_type = 0x03 then (parse_device_online d).map (optR .deviceOnline)
    else if event_type = 0x04 then
      (parse_device_lock d).map (optR fun s => match s with
        | Sum.inl sl => .systemLockout sl
        | Sum.inr dl => .deviceLock dl)
    else if event_type = 0x0C then (parse_tank_status d).map .tankLevels
    else if event_type = 0x1B then (parse_tank_status_v2 d).map (optR .tankLevel)
    else if event_type = 0x08 then (parse_dimmable_light d).map (optR .dimmableLight)
    else if event_type = 0x09 then (parse_rgb_light d).map (optR .rgbLight)
    else if event_type = 0x0A then (parse_generator_status d).map (optR .generatorStatus)
    else if event_type = 0x0B then (parse_hvac_status d).map .hvacZones
    else if event_type = 0x0D ∨ event_type = 0x0E then
      (parse_cover_status d).map (optR .coverStatus)
    else if event_type = 0x0F then (parse_hour_meter d).map (optR .hourMeter)
    else if event_type = 0x20 then (parse_real_time_clock d).map (optR .realTimeClock)
    else if event_type = 0x02 then (parse_metadata_response d).map .metadata
    else if event_type = 0x1A then Except.ok ParseResult.none
    else Except.ok (ParseResult.raw d)

/-- Minimum frame size per event type, below which each parser returns an
absent value (`None` or `[]`). -/
def minEventSize (t : Nat) : Option Nat :=
  if t = 0x01 then some 5
  else if t = 0x07 then some 6
  else if t = 0x05 ∨ t = 0x06 then some 5
  else if t = 0x03 then some 4
  else if t = 0x04 then some 4
  else if t = 0x0C then some 4
  else if t = 0x1B then some 4
  else if t = 0x08 then some 5
  else if t = 0x09 then some 5
  else if t = 0x0A then some 4
  else if t = 0x0B then some 4
  else if t = 0x0D ∨ t = 0x0E then some 4
  else if t = 0x0F then some 4
  else if t = 0x20 then some 8
  else if t = 0x02 then some 7
  else none

/-- Absent parse results (`None` or an empty list). -/
def isAbsent : ParseResult → Bool
  | .none => true
  | .tankLevels [] => true
  | .hvacZones [] => true
  | .metadata [] => true
  | _ => false

/-! ## Coordinator: HVAC pending guard, setpoint retry, reconnect backoff,
lockout-clear throttle (coordinator.py, const.py) -/

def HVAC_PENDING_WINDOW_S : ℚ := 8

def HVAC_SETPOINT_PENDING_WINDOW_S : ℚ := 20

def HVAC_PRESET_PENDING_WINDOW_S : ℚ := 70

def HVAC_SETPOINT_RETRY_DELAY_S : ℚ := 5

def HVAC_SETPOINT_MAX_RETRIES : Nat := 3

def LOCKOUT_CLEAR_THROTTLE : ℚ := 5

def RECONNECT_BACKOFF_BASE : ℚ := 5

def RECONNECT_BACKOFF_CAP : ℚ := 120

def HVAC_CAP_GAS : Nat := 1

def HVAC_CAP_AC : Nat := 2

def HVAC_CAP_HEAT_PUMP : Nat := 4

def HVAC_CAP_MULTISPEED_FAN : Nat := 8

structure PendingHvacCommand where
  table_id : Nat
  device_id : Nat
  heat_mode : Nat
  heat_source : Nat
  fan_mode : Nat
  low_trip_f : Nat
  high_trip_f : Nat
  is_setpoint_change : Bool
  is_preset_change : Bool
  sent_at : ℚ
  retry_count : Nat
deriving DecidableEq

/-- The coordinator state relevant to `_handle_hvac_zone`: the pending-command
guard, the inventory (`hvac_zones`), the reconciliation baseline
(`_hvac_zone_states`), observed capability, and whether a setpoint-retry timer
is scheduled per zone key.  Keys are `(table_id, device_id)` pairs. -/
structure CoordState where
  pending_hvac : Nat × Nat → Option PendingHvacCommand
  hvac_zones : Nat × Nat → Option HvacZone
  hvac_zone_states : Nat × Nat → Option HvacZone
  observed_hvac_capability : Nat × Nat → Nat
  hvac_retry_scheduled : Nat × Nat → Bool

def upd {α : Type} (f : Nat × Nat → α) (key : Nat × Nat) (v : α) :
    Nat × Nat → α :=
  fun k => if k = key then v else f k

/-- `_update_observed_hvac_capability`, as a pure function from the previous
capability and the zone event to the new capability (storing an unchanged
value is the same as always storing). -/
def update_observed_hvac_capability (prev : Nat) (z : HvacZone) : Nat :=
  let active_status := z.zone_status &&& 0x0F
  let cap := prev
  let cap :=
    if active_status = 2 then cap ||| HVAC_CAP_AC
    else if active_status = 3 then cap ||| HVAC_CAP_HEAT_PUMP ||| HVAC_CAP_AC
    else if active_status = 5 ∨ active_status = 6 then cap ||| HVAC_CAP_GAS
    else cap
  let cap :=
    if z.heat_mode = 1 ∨ z.heat_mode = 3 then
      (if z.heat_source = 0 then cap ||| HVAC_CAP_GAS
       else if z.heat_source = 1 then cap ||| HVAC_CAP_HEAT_PUMP
       else cap)
    else cap
  let cap := if z.heat_mode = 2 ∨ z.heat_mode = 3 then cap ||| HVAC_CAP_AC else cap
  let cap := if z.fan_mode = 2 then cap ||| HVAC_CAP_MULTISPEED_FAN else cap
  cap

/-- The pending-guard window: 70 s for preset changes, 20 s for setpoint
changes, 8 s otherwise. -/
def hvac_window (p : PendingHvacCommand) : ℚ :=
  if p.is_preset_change then HVAC_PRESET_PENDING_WINDOW_S
  else if p.is_setpoint_change then HVAC_SETPOINT_PENDING_WINDOW_S
  else HVAC_PENDING_WINDOW_S

/-- The guard's match test: equal modes and trip temperatures within ±1 °F. -/
def hvac_matches (z : HvacZone) (p : PendingHvacCommand) : Bool :=
  (z.heat_mode == p.heat_mode) && (z.heat_source == p.heat_source) &&
  (z.fan_mode == p.fan_mode) &&
  decide (((z.low_trip_f : Int) - (p.low_trip_f : Int)).natAbs ≤ 1) &&
  decide (((z.high_trip_f : Int) - (p.high_trip_f : Int)).natAbs ≤ 1)

/-- `_handle_hvac_zone`: always update observed capability; then, if a pending
command exists and is inside its window, suppress non-matching events
(return without touching `hvac_zones`, the baseline, or the pending entry),
confirm matching non-preset commands (pop pending, cancel retry), keep the
preset guard for its full window; an expired pending entry is popped.  In all
non-suppressed paths the zone is stored in `hvac_zones` and the baseline.
(The metadata-ensure call is pure I/O and does not touch these fields.) -/
def handle_hvac_zone (s : CoordState) (z : HvacZone) (now : ℚ) : CoordState :=
  let key := (z.table_id, z.device_id)
  let s1 : CoordState :=
    { s with
      observed_hvac_capability :=
        upd s.observed_hvac_capability key
          (update_observed_hvac_capability (s.observed_hvac_capability key) z) }
  let store : CoordState → CoordState := fun st =>
    { st with hvac_zones := upd st.hvac_zones key (some z),
              hvac_zone_states := upd st.hvac_zone_states key (some z) }
  match s1.pending_hvac key with
  | some pending =>
    let age := now - pending.sent_at
    if age ≤ hvac_window pending then
      if ¬ hvac_matches z pending then
        s1
      else
        let s2 : CoordState :=
          if ¬ pending.is_preset_change then
            { s1 with pending_hvac := upd s1.pending_hvac key none,
                      hvac_retry_scheduled := upd s1.hvac_retry_scheduled key false }
          else s1
        store s2
    else
      store { s1 with pending_hvac := upd s1.pending_hvac key none }
  | none => store s1

/-- `_do_retry_setpoint` as a function of the pending entry for the zone key
and the current time; returns the new pending entry and whether a
transmission occurred. -/
def do_retry_setpoint (pending : Option PendingHvacCommand) (now : ℚ) :
    Option PendingHvacCommand × Bool :=
  match pending with
  | none => (none, false)
  | some p =>
    if ¬ p.is_setpoint_change then (some p, false)
    else if p.retry_count ≥ HVAC_SETPOINT_MAX_RETRIES then (none, false)
    else (some { p with retry_count := p.retry_count + 1, sent_at := now }, true)

/-- Total transmissions and final pending state after `n` retry firings with
no intervening echo. -/
def retryTrace : Nat → Option PendingHvacCommand → ℚ → Nat × Option PendingHvacCommand
  | 0, p, _ => (0, p)
  | Nat.succ n, p, now =>
    let r := do_retry_setpoint p now
    let rest := retryTrace n r.1 now
    ((if r.2 then 1 else 0) + rest.1, rest.2)

/-- `_schedule_reconnect`: the delay computed from the consecutive-failure
count, and the incremented count. -/
def schedule_reconnect (failures : Nat) : ℚ × Nat :=
  (min (RECONNECT_BACKOFF_BASE * 2 ^ failures) RECONNECT_BACKOFF_CAP, failures + 1)

/-- `_reconnect_with_delay` on success resets the failure count. -/
def reconnect_success (_failures : Nat) : Nat := 0

/-- The scheduled delays of `n` successive disconnects starting from failure
count `f` with no intervening successful connect. -/
def backoffDelays : Nat → Nat → List ℚ
  | 0, _ => []
  | Nat.succ n, f => (schedule_reconnect f).1 :: backoffDelays n (schedule_reconnect f).2

inductive LockoutOutcome : Type
  | throttled : LockoutOutcome
  | notConnected : LockoutOutcome
  | wroteCan : LockoutOutcome
  | wroteData : LockoutOutcome
deriving DecidableEq

/-- `async_clear_lockout`: the throttle check reads `_last_lockout_clear`
first; the timestamp is then updated BEFORE the connection check, so a
disconnected call that raises has already consumed the window.  Returns the
new `_last_lockout_clear` and the outcome. -/
def async_clear_lockout (last_clear now : ℚ) (connected has_can_write : Bool) :
    ℚ × LockoutOutcome :=
  if now - last_clear < LOCKOUT_CLEAR_THROTTLE then (last_clear, .throttled)
  else
    if ¬ connected then (now, .notConnected)
    else if has_can_write then (now, .wroteCan)
    else (now, .wroteData)

/-- Concrete pending command used by the C2 witness. -/
def c2P : PendingHvacCommand :=
  { table_id := 1, device_id := 2, heat_mode := 0, heat_source := 0, fan_mode := 0,
    low_trip_f := 65, high_trip_f := 78, is_setpoint_change := true,
    is_preset_change := false, sent_at := 0, retry_count := 0 }

/-- Concrete zone event used by the C2 witness: differs from `c2P` in
`heat_mode`. -/
def c2Z : HvacZone :=
  { table_id := 1, device_id := 2, heat_mode := 2, heat_source := 0, fan_mode := 0,
    low_trip_f := 65, high_trip_f := 78, zone_status := 0, indoor_temp_f := none,
    outdoor_temp_f := none, dtc_code := 0 }

/-- Concrete coordinator state used by the C2 witness. -/
def c2S : CoordState :=
  { pending_hvac := fun k => if k = (1, 2) then some c2P else none,
    hvac_zones := fun _ => none, hvac_zone_states := fun _ => none,
    observed_hvac_capability := fun _ => 0, hvac_retry_scheduled := fun _ => false }

/-- Concrete pending setpoint command used by the C3 witness. -/
def c3P : PendingHvacCommand :=
  { table_id := 1, device_id := 2, heat_mode := 0, heat_source := 0, fan_mode := 0,
    low_trip_f := 65, high_trip_f := 78, is_setpoint_change := true,
    is_preset_change := false, sent_at := 0, retry_count := 0 }

/-! ## Theorems -/

/-! ### CRC8 basic facts -/

theorem and255_eq_mod (x : Nat) : x &&& 0xFF = x % 256 := by
  have h := Nat.and_pow_two_sub_one_eq_mod x 8
  norm_num at h
  exact h

theorem and255_of_lt {x : Nat} (hx : x < 256) : x &&& 0xFF = x := by
  rw [and255_eq_mod]
  exact Nat.mod_eq_of_lt hx

theorem and255_lt (x : Nat) : x &&& 0xFF < 256 := by
  rw [and255_eq_mod]
  exact Nat.mod_lt _ (by norm_num)

theorem crcBitStep_lt (x : Nat) : crcBitStep x < 256 := by
  unfold crcBitStep
  split
  · exact and255_lt _
  · exact and255_lt _

theorem crcTable_lt (i : Nat) : crcTable i < 256 := crcBitStep_lt _

theorem crc8_cons (b : Nat) (l : List Nat) (c : Nat) :
    crc8 (b :: l) c = crc8 l (crcTable ((c ^^^ b) &&& 0xFF)) := rfl

theorem crc8_append (l₁ l₂ : List Nat) (c : Nat) :
    crc8 (l₁ ++ l₂) c = crc8 l₂ (crc8 l₁ c) := by
  simp [crc8, List.foldl_append]

theorem crc8_lt (l : List Nat) (c : Nat) (hc : c < 256) : crc8 l c < 256 := by
  induction l generalizing c with
  | nil => exact hc
  | cons b t ih => exact ih _ (crcTable_lt _)

/-- Appending the running CRC to the data always yields CRC 0:
`table[x ^ x] = table[0] = 0`. -/
theorem crc8_self_append (l : List Nat) (c : Nat) :
    crc8 (l ++ [crc8 l c]) c = 0 := by
  rw [crc8_append]
  show crcTable ((crc8 l c ^^^ crc8 l c) &&& 0xFF) = 0
  simp [Nat.xor_self]
  decide

set_option maxRecDepth 4000 in
theorem crcTableInv_crcTable : ∀ i < 256, crcTableInv.getD (crcTable i) 0 = i := by
  decide

theorem crcTable_injOn {a b : Nat} (ha : a < 256) (hb : b < 256)
    (h : crcTable a = crcTable b) : a = b := by
  have := crcTableInv_crcTable a ha
  have hb' := crcTableInv_crcTable b hb
  rw [h] at this
  omega

/-- A byte-level CRC update step is injective in the running CRC. -/
theorem crc_update_inj {c₁ c₂ b : Nat} (h₁ : c₁ < 256) (h₂ : c₂ < 256)
    (hne : c₁ ≠ c₂) : crcTable ((c₁ ^^^ b) &&& 0xFF) ≠ crcTable ((c₂ ^^^ b) &&& 0xFF) := by
  intro h
  apply hne
  have hx := crcTable_injOn (and255_lt (c₁ ^^^ b)) (and255_lt (c₂ ^^^ b)) h
  have m₁ : (c₁ ^^^ b) &&& 0xFF = c₁ ^^^ (b &&& 0xFF) := by
    rw [Nat.and_xor_distrib_right, and255_of_lt h₁]
  have m₂ : (c₂ ^^^ b) &&& 0xFF = c₂ ^^^ (b &&& 0xFF) := by
    rw [Nat.and_xor_distrib_right, and255_of_lt h₂]
  rw [m₁, m₂] at hx
  have h2 := congrArg (fun x => x ^^^ (b &&& 0xFF)) hx
  simpa [Nat.xor_assoc] using h2

/-! ### Frame-terminator lemmas -/

/-- A leading delimiter on a fresh decoder is a no-op returning `none`. -/
theorem decode_byte_init_zero :
    (CobsByteDecoder.mk0 true).decode_byte 0 = (CobsByteDecoder.mk0 true, none) := rfl

/-- Terminating a correctly-accumulated `payload ++ [crc]` buffer returns
the payload. -/
theorem decode_byte_term_ok (p : List Nat) (hp : p ≠ []) :
    (CobsByteDecoder.mk true (p ++ [crc8 p 0x55]) 0).decode_byte 0 =
      (⟨true, [], 0⟩, some p) := by
  have hlen : ¬ (p ++ [crc8 p 0x55]).length ≤ 1 := by
    have := List.length_pos.mpr hp
    simp only [List.length_append, List.length_cons, List.length_nil]
    omega
  unfold CobsByteDecoder.decode_byte
  simp only [Nat.zero_and, FRAME_CHAR, if_pos rfl, CobsByteDecoder.min_payload,
    CobsByteDecoder.reset]
  norm_num [hlen, List.getLast?_concat, List.dropLast_concat]
  intro h
  exact absurd h hp

/-- Terminating a buffer whose CRC check fails returns `none`. -/
theorem decode_byte_term_bad (buf : List Nat)
    (hbad : crc8 buf.dropLast 0x55 ≠ buf.getLast?.getD 0) :
    (CobsByteDecoder.mk true buf 0).decode_byte 0 = (⟨true, [], 0⟩, none) := by
  unfold CobsByteDecoder.decode_byte
  simp only [Nat.zero_and, FRAME_CHAR, if_pos rfl, CobsByteDecoder.min_payload,
    CobsByteDecoder.reset]
  norm_num [hbad]

example : cobs_encode [] true true = [0, 0] := by decide

example : cobs_encode [1] true true = [0, 2, 1, 0xab] ++ [0] := by decide

example :
    decodeOutputs (CobsByteDecoder.mk0 true) (cobs_encode [1] true true) =
      [none, none, none, none, some [1]] := by decide

example :
    decodeOutputs (CobsByteDecoder.mk0 true)
        (cobs_encode [0x07, 0x31, 0x00, 0x18, 0x80, 0x00] true true) =
      List.replicate 9 none ++ [some [0x07, 0x31, 0x00, 0x18, 0x80, 0x00]] := by decide

example :
    decodeOutputs (CobsByteDecoder.mk0 true) [0, 0x42, 1, 0xab, 0] =
      [none, none, none, none, some [1, 0xab]] := by decide

/-! ### COBS structural lemmas -/

theorem and63_eq_mod (x : Nat) : x &&& MAX_DATA_BYTES = x % 64 := by
  have h := Nat.and_pow_two_sub_one_eq_mod x 6
  norm_num at h
  exact h

theorem takeNonZero_decomp : ∀ (k : Nat) (l : List Nat),
    l = (takeNonZero k l).1 ++ (takeNonZero k l).2 := by
  intro k
  induction k with
  | zero => intro l; cases l <;> rfl
  | succ k ih =>
    intro l
    cases l with
    | nil => rfl
    | cons b t =>
      by_cases hb : b = FRAME_CHAR
      · simp [takeNonZero, hb]
      · simpa [takeNonZero, hb] using ih t

theorem takeNonZero_nonzero : ∀ (k : Nat) (l : List Nat) (x : Nat),
    x ∈ (takeNonZero k l).1 → x ≠ 0 := by
  intro k
  induction k with
  | zero => intro l x hx; cases l <;> simp [takeNonZero] at hx
  | succ k ih =>
    intro l x hx
    cases l with
    | nil => simp [takeNonZero] at hx
    | cons b t =>
      by_cases hb : b = FRAME_CHAR
      · simp [takeNonZero, hb] at hx
      · simp only [takeNonZero, if_neg hb, List.mem_cons] at hx
        rcases hx with rfl | hx
        · simpa [FRAME_CHAR] using hb
        · exact ih t x hx

theorem takeNonZero_length_le : ∀ (k : Nat) (l : List Nat),
    (takeNonZero k l).1.length ≤ k := by
  intro k
  induction k with
  | zero => intro l; cases l <;> simp [takeNonZero]
  | succ k ih =>
    intro l
    cases l with
    | nil => simp [takeNonZero]
    | cons b t =>
      by_cases hb : b = FRAME_CHAR
      · simp [takeNonZero, hb]
      · simp only [takeNonZero, if_neg hb, List.length_cons]
        exact Nat.succ_le_succ (ih t)

theorem takeNonZero_nil_head : ∀ (k : Nat) (b : Nat) (t : List Nat),
    (takeNonZero (k + 1) (b :: t)).1 = [] → b = 0 := by
  intro k b t h
  by_cases hb : b = FRAME_CHAR
  · exact hb
  · simp [takeNonZero, hb] at h

theorem takeZeros_ge : ∀ (l : List Nat) (c : Nat), c ≤ (takeZeros l c).1 := by
  intro l
  induction l with
  | nil => intro c; simp [takeZeros]
  | cons b t ih =>
    intro c
    by_cases hb : b ≠ FRAME_CHAR
    · simp [takeZeros, hb]
    · simp only [takeZeros, if_neg hb]
      split
      · omega
      · exact le_trans (by omega) (ih (c + FRAME_BYTE_COUNT_LSB))

theorem takeZeros_lt256 : ∀ (l : List Nat) (c : Nat), c < 192 → (takeZeros l c).1 < 256 := by
  intro l
  induction l with
  | nil => intro c hc; simpa [takeZeros] using by omega
  | cons b t ih =>
    intro c hc
    by_cases hb : b ≠ FRAME_CHAR
    · simpa [takeZeros, hb] using by omega
    · simp only [takeZeros, if_neg hb]
      split
      · simp only [FRAME_BYTE_COUNT_LSB]; omega
      · rename_i hlt
        simp only [MAX_COMPRESSED_FRAME_BYTES, not_le] at hlt
        exact ih _ hlt

theorem takeZeros_decomp : ∀ (l : List Nat) (c : Nat),
    ∃ z, (takeZeros l c).1 = c + 64 * z ∧
      l = List.replicate z 0 ++ (takeZeros l c).2 := by
  intro l
  induction l with
  | nil => intro c; exact ⟨0, by simp [takeZeros]⟩
  | cons b t ih =>
    intro c
    by_cases hb : b = 0
    · subst hb
      simp only [takeZeros, FRAME_CHAR, FRAME_BYTE_COUNT_LSB, MAX_COMPRESSED_FRAME_BYTES,
        ne_eq, not_true_eq_false, if_false]
      by_cases hcap : 192 ≤ c + 64
      · rw [if_pos hcap]
        exact ⟨1, by omega, by simp⟩
      · rw [if_neg hcap]
        obtain ⟨z, h1, h2⟩ := ih (c + 64)
        refine ⟨z + 1, by omega, ?_⟩
        rw [List.replicate_succ]
        simpa using h2
    · have hb' : b ≠ FRAME_CHAR := by simpa [FRAME_CHAR] using hb
      refine ⟨0, ?_, ?_⟩ <;> simp [takeZeros, hb']

theorem takeZeros_cons_zero_ge (t : List Nat) (c : Nat) :
    c + 64 ≤ (takeZeros (0 :: t) c).1 := by
  simp only [takeZeros, FRAME_CHAR, FRAME_BYTE_COUNT_LSB, MAX_COMPRESSED_FRAME_BYTES,
    ne_eq, not_true_eq_false, if_false]
  by_cases hcap : 192 ≤ c + 64
  · rw [if_pos hcap]
  · rw [if_neg hcap]
    exact takeZeros_ge t _

theorem insertZerosF_mul64 : ∀ (fuel z : Nat) (buf : List Nat), z ≤ fuel →
    buf.length + z ≤ MAX_BUFFER →
    insertZerosF fuel (64 * z) buf = buf ++ List.replicate z 0 := by
  intro fuel
  induction fuel with
  | zero =>
    intro z buf hz _
    interval_cases z
    simp [insertZerosF]
  | succ fuel ih =>
    intro z buf hz hcap
    cases z with
    | zero => simp [insertZerosF]
    | succ k =>
      have hne : 64 * (k + 1) ≠ 0 := by omega
      have hlen : buf.length < MAX_BUFFER := by omega
      simp only [insertZerosF, if_neg hne, if_pos hlen]
      have e : 64 * (k + 1) - FRAME_BYTE_COUNT_LSB = 64 * k := by
        simp [FRAME_BYTE_COUNT_LSB]; ring_nf; omega
      rw [e, ih k (buf ++ [FRAME_CHAR]) (by omega) (by simp; omega)]
      simp [FRAME_CHAR, List.replicate_succ]

theorem insertZeros_mul64 (z : Nat) (buf : List Nat) (hcap : buf.length + z ≤ MAX_BUFFER) :
    insertZeros (64 * z) buf = buf ++ List.replicate z 0 :=
  insertZerosF_mul64 (64 * z) z buf (by omega) hcap

/-- Processing a non-zero, in-range byte never yields a frame. -/
theorem decode_byte_pos_none (d : CobsByteDecoder) (x : Nat) (h0 : x ≠ 0) (hx : x < 256) :
    (d.decode_byte x).2 = none := by
  unfold CobsByteDecoder.decode_byte
  rw [and255_of_lt hx]
  simp only [FRAME_CHAR, if_neg h0]
  repeat' split
  all_goals rfl

/-- Stepping a fresh-block state on a non-zero byte sets the code and
possibly expands implicit zeros. -/
theorem decode_byte_code_set (uc : Bool) (buf : List Nat) (y : Nat)
    (hy0 : y ≠ 0) (hy : y < 256) :
    (CobsByteDecoder.mk uc buf 0).decode_byte y =
      (if y &&& MAX_DATA_BYTES = 0 then ⟨uc, insertZeros y buf, 0⟩
       else ⟨uc, buf, y⟩, none) := by
  by_cases hmod : y &&& MAX_DATA_BYTES = 0 <;>
    (unfold CobsByteDecoder.decode_byte
     rw [and255_of_lt hy]
     simp [FRAME_CHAR, hy0, hmod])

/-- Stepping a mid-block state on a non-zero byte appends it and possibly
expands implicit zeros. -/
theorem decode_byte_step (uc : Bool) (buf : List Nat) (c y : Nat)
    (hy0 : y ≠ 0) (hy : y < 256) (hc : c ≠ 0) (hcap : buf.length < MAX_BUFFER) :
    (CobsByteDecoder.mk uc buf c).decode_byte y =
      (if (c - 1) &&& MAX_DATA_BYTES = 0
       then ⟨uc, insertZeros (c - 1) (buf ++ [y]), 0⟩
       else ⟨uc, buf ++ [y], c - 1⟩, none) := by
  by_cases hmod : (c - 1) &&& MAX_DATA_BYTES = 0 <;>
    (unfold CobsByteDecoder.decode_byte
     rw [and255_of_lt hy]
     simp [FRAME_CHAR, hy0, hc, hcap, hmod])

/-- Consuming the non-zero bytes of a block (plus the implicit zero run
encoded in the high bits of the code) appends exactly those source bytes. -/
theorem decodeRun_consume : ∀ (nz : List Nat) (z : Nat) (buf : List Nat) (uc : Bool)
    (rest : List Nat),
    (∀ y ∈ nz, y ≠ 0 ∧ y < 256) → nz ≠ [] → nz.length ≤ 63 → z ≤ 3 →
    buf.length + nz.length + z ≤ MAX_BUFFER →
    decodeRun ⟨uc, buf, nz.length + 64 * z⟩ (nz ++ rest) =
      decodeRun ⟨uc, buf ++ nz ++ List.replicate z 0, 0⟩ rest := by
  intro nz
  induction nz with
  | nil => intro _ _ _ _ _ h; exact absurd rfl h
  | cons y t ih =>
    intro z buf uc rest hwf _ hlen hz hcap
    have hy := hwf y (List.mem_cons_self _ _)
    simp only [List.length_cons] at hlen hcap
    have hcap382 : buf.length + (t.length + 1) + z ≤ 382 := by
      simpa [MAX_BUFFER] using hcap
    have hcap1 : buf.length < MAX_BUFFER := by
      simp only [MAX_BUFFER]
      omega
    simp only [List.cons_append, decodeRun]
    rw [decode_byte_step uc buf _ y hy.1 hy.2 (by simp only [List.length_cons]; omega) hcap1]
    have hsub : (y :: t).length + 64 * z - 1 = t.length + 64 * z := by
      simp only [List.length_cons]
      omega
    rw [hsub]
    cases t with
    | nil =>
      have hmod : (List.length ([] : List Nat) + 64 * z) &&& MAX_DATA_BYTES = 0 := by
        rw [and63_eq_mod]
        simp only [List.length_nil, Nat.zero_add]
        omega
      rw [if_pos hmod]
      simp only [List.length_nil, Nat.zero_add]
      rw [insertZeros_mul64 z (buf ++ [y])
        (by simp only [List.length_append, List.length_cons, List.length_nil, MAX_BUFFER]
            simp only [List.length_nil] at hcap382
            omega)]
      simp
    | cons y' t' =>
      have hlen' : t'.length + 1 ≤ 62 := by
        simp only [List.length_cons] at hlen
        omega
      have hmod : ((y' :: t').length + 64 * z) &&& MAX_DATA_BYTES ≠ 0 := by
        rw [and63_eq_mod]
        simp only [List.length_cons]
        omega
      rw [if_neg hmod]
      show decodeRun ⟨uc, buf ++ [y], (y' :: t').length + 64 * z⟩ ((y' :: t') ++ rest) =
        decodeRun ⟨uc, buf ++ (y :: y' :: t') ++ List.replicate z 0, 0⟩ rest
      rw [ih z (buf ++ [y]) uc rest (fun x hx => hwf x (List.mem_cons_of_mem _ hx))
        (by simp) (by simp only [List.length_cons]; omega) hz
        (by simp only [List.length_append, List.length_cons, List.length_nil, MAX_BUFFER]
            simp only [List.length_cons] at hcap382
            omega)]
      simp

/-- Decoding one encoded block from a block boundary appends exactly the
block's source bytes (non-zero run plus compressed zero run). -/
theorem decodeRun_block (nz : List Nat) (z : Nat) (buf : List Nat) (uc : Bool)
    (rest : List Nat)
    (hwf : ∀ y ∈ nz, y ≠ 0 ∧ y < 256) (hlen : nz.length ≤ 63) (hz : z ≤ 3)
    (hpos : 1 ≤ nz.length + z)
    (hcap : buf.length + nz.length + z ≤ MAX_BUFFER) :
    decodeRun ⟨uc, buf, 0⟩ (((nz.length + 64 * z) &&& 0xFF) :: nz ++ rest) =
      decodeRun ⟨uc, buf ++ nz ++ List.replicate z 0, 0⟩ rest := by
  have hcode : nz.length + 64 * z < 256 := by omega
  have hcode0 : nz.length + 64 * z ≠ 0 := by omega
  rw [and255_of_lt hcode]
  simp only [decodeRun]
  rw [decode_byte_code_set uc buf _ hcode0 hcode]
  cases nz with
  | nil =>
    have hmod : (([] : List Nat).length + 64 * z) &&& MAX_DATA_BYTES = 0 := by
      rw [and63_eq_mod]
      simp only [List.length_nil, Nat.zero_add]
      omega
    rw [if_pos hmod]
    simp only [List.length_nil, Nat.zero_add]
    rw [insertZeros_mul64 z buf
      (by simp only [List.length_nil, MAX_BUFFER] at hcap ⊢; omega)]
    simp
  | cons y t =>
    have hmod : ((y :: t).length + 64 * z) &&& MAX_DATA_BYTES ≠ 0 := by
      rw [and63_eq_mod]
      simp only [List.length_cons] at hlen ⊢
      omega
    rw [if_neg hmod]
    exact decodeRun_consume (y :: t) z buf uc rest hwf (by simp) hlen hz hcap

/-- Combined structural facts about one encoder block on a non-empty source. -/
theorem cobs_block_facts (b : Nat) (t : List Nat) :
    ∃ z, (takeZeros (takeNonZero MAX_DATA_BYTES (b :: t)).2
            (takeNonZero MAX_DATA_BYTES (b :: t)).1.length).1 =
          (takeNonZero MAX_DATA_BYTES (b :: t)).1.length + 64 * z ∧
      b :: t = (takeNonZero MAX_DATA_BYTES (b :: t)).1 ++ (List.replicate z 0 ++
          (takeZeros (takeNonZero MAX_DATA_BYTES (b :: t)).2
            (takeNonZero MAX_DATA_BYTES (b :: t)).1.length).2) ∧
      z ≤ 3 ∧ 1 ≤ (takeNonZero MAX_DATA_BYTES (b :: t)).1.length + z := by
  obtain ⟨z, hz1, hz2⟩ := takeZeros_decomp (takeNonZero MAX_DATA_BYTES (b :: t)).2
    (takeNonZero MAX_DATA_BYTES (b :: t)).1.length
  have hlen63 : (takeNonZero MAX_DATA_BYTES (b :: t)).1.length ≤ 63 := by
    simpa [MAX_DATA_BYTES] using takeNonZero_length_le MAX_DATA_BYTES (b :: t)
  have hlt : (takeZeros (takeNonZero MAX_DATA_BYTES (b :: t)).2
      (takeNonZero MAX_DATA_BYTES (b :: t)).1.length).1 < 256 :=
    takeZeros_lt256 _ _ (by omega)
  have hdec := takeNonZero_decomp MAX_DATA_BYTES (b :: t)
  refine ⟨z, hz1, ?_, by omega, ?_⟩
  · conv_lhs => rw [hdec]
    rw [← hz2]
  · by_cases hnz : (takeNonZero MAX_DATA_BYTES (b :: t)).1 = []
    · have hb0 : b = 0 := by
        apply takeNonZero_nil_head 62 b t
        simpa [MAX_DATA_BYTES] using hnz
      have hr1 : (takeNonZero MAX_DATA_BYTES (b :: t)).2 = b :: t := by
        conv_rhs => rw [hdec]
        rw [hnz]
        rfl
      have h64 : 64 ≤ (takeZeros (takeNonZero MAX_DATA_BYTES (b :: t)).2
          (takeNonZero MAX_DATA_BYTES (b :: t)).1.length).1 := by
        rw [hr1, hnz]
        simp only [List.length_nil]
        rw [hb0]
        simpa using takeZeros_cons_zero_ge t 0
      rw [hz1] at h64
      omega
    · have := List.length_pos.mpr hnz
      omega

/-- Every byte of the encoded block stream is non-zero and below 256. -/
theorem encodeBlocksF_bytes : ∀ (fuel : Nat) (src : List Nat),
    (∀ x ∈ src, x < 256) → ∀ y ∈ encodeBlocksF fuel src, y ≠ 0 ∧ y < 256 := by
  intro fuel
  induction fuel with
  | zero => intro src _ y hy; simp [encodeBlocksF] at hy
  | succ fuel ih =>
    intro src hwf y hy
    cases src with
    | nil => simp [encodeBlocksF] at hy
    | cons b t =>
      obtain ⟨z, hz1, hz2, hz3, hz4⟩ := cobs_block_facts b t
      have hlen63 : (takeNonZero MAX_DATA_BYTES (b :: t)).1.length ≤ 63 := by
        simpa [MAX_DATA_BYTES] using takeNonZero_length_le MAX_DATA_BYTES (b :: t)
      simp only [encodeBlocksF, List.cons_append, List.mem_cons, List.mem_append] at hy
      rcases hy with rfl | (hnz | hrest)
      · rw [hz1, and255_of_lt (by omega)]
        constructor
        · omega
        · omega
      · refine ⟨takeNonZero_nonzero _ _ _ hnz, hwf y ?_⟩
        rw [hz2]
        exact List.mem_append_left _ hnz
      · refine ih _ ?_ y hrest
        intro x hx
        apply hwf
        rw [hz2]
        exact List.mem_append_right _ (List.mem_append_right _ hx)

/-- Running the decoder over the encoded blocks of `src` from a block
boundary appends exactly `src` to the buffer and returns to a block
boundary. -/
theorem decodeRun_encodeBlocksF : ∀ (fuel : Nat) (src : List Nat) (buf : List Nat)
    (uc : Bool) (rest : List Nat), src.length ≤ fuel → (∀ x ∈ src, x < 256) →
    buf.length + src.length ≤ MAX_BUFFER →
    decodeRun ⟨uc, buf, 0⟩ (encodeBlocksF fuel src ++ rest) =
      decodeRun ⟨uc, buf ++ src, 0⟩ rest := by
  intro fuel
  induction fuel with
  | zero =>
    intro src buf uc rest hfuel _ _
    have hsrc : src = [] := List.length_eq_zero.mp (by omega)
    subst hsrc
    simp [encodeBlocksF]
  | succ fuel ih =>
    intro src buf uc rest hfuel hwf hcap
    cases src with
    | nil => simp [encodeBlocksF]
    | cons b t =>
      obtain ⟨z, hz1, hz2, hz3, hz4⟩ := cobs_block_facts b t
      have hlen63 : (takeNonZero MAX_DATA_BYTES (b :: t)).1.length ≤ 63 := by
        simpa [MAX_DATA_BYTES] using takeNonZero_length_le MAX_DATA_BYTES (b :: t)
      have hlens := congrArg List.length hz2
      simp only [List.length_cons, List.length_append, List.length_replicate] at hlens
      simp only [encodeBlocksF]
      rw [hz1]
      simp only [List.cons_append, List.append_assoc]
      have hblock := decodeRun_block (takeNonZero MAX_DATA_BYTES (b :: t)).1 z buf uc
        (encodeBlocksF fuel
          (takeZeros (takeNonZero MAX_DATA_BYTES (b :: t)).2
            (takeNonZero MAX_DATA_BYTES (b :: t)).1.length).2 ++ rest)
        (fun y hy => ⟨takeNonZero_nonzero _ _ _ hy,
          hwf y (by rw [hz2]; exact List.mem_append_left _ hy)⟩)
        hlen63 hz3 hz4
        (by simp only [List.length_cons] at hcap; omega)
      refine hblock.trans ?_
      have hih := ih
        (takeZeros (takeNonZero MAX_DATA_BYTES (b :: t)).2
          (takeNonZero MAX_DATA_BYTES (b :: t)).1.length).2
        (buf ++ (takeNonZero MAX_DATA_BYTES (b :: t)).1 ++ List.replicate z 0)
        uc rest
        (by simp only [List.length_cons] at hfuel; omega)
        (fun x hx => hwf x (by
          rw [hz2]
          exact List.mem_append_right _ (List.mem_append_right _ hx)))
        (by simp only [List.length_append, List.length_replicate, List.length_cons] at hcap ⊢
            omega)
      refine hih.trans ?_
      have hbufs : buf ++ (takeNonZero MAX_DATA_BYTES (b :: t)).1 ++ List.replicate z 0 ++
          (takeZeros (takeNonZero MAX_DATA_BYTES (b :: t)).2
            (takeNonZero MAX_DATA_BYTES (b :: t)).1.length).2 = buf ++ b :: t := by
        conv_rhs => rw [hz2]
        simp [List.append_assoc]
      rw [hbufs]

theorem decodeRun_append (d : CobsByteDecoder) (l₁ l₂ : List Nat) :
    decodeRun d (l₁ ++ l₂) = decodeRun (decodeRun d l₁) l₂ := by
  induction l₁ generalizing d with
  | nil => rfl
  | cons b t ih => simp [decodeRun, ih]

theorem decodeOutputs_append (d : CobsByteDecoder) (l₁ l₂ : List Nat) :
    decodeOutputs d (l₁ ++ l₂) = decodeOutputs d l₁ ++ decodeOutputs (decodeRun d l₁) l₂ := by
  induction l₁ generalizing d with
  | nil => rfl
  | cons b t ih => simp [decodeOutputs, decodeRun, ih]

theorem decodeOutputs_nonzero (d : CobsByteDecoder) (l : List Nat)
    (h : ∀ x ∈ l, x ≠ 0 ∧ x < 256) :
    decodeOutputs d l = List.replicate l.length none := by
  induction l generalizing d with
  | nil => rfl
  | cons b t ih =>
    have hb := h b (by simp)
    simp only [decodeOutputs, List.length_cons, List.replicate_succ]
    rw [decode_byte_pos_none d b hb.1 hb.2, ih _ fun x hx => h x (by simp [hx])]

/-! ### Claim C1 — COBS round-trip -/

/-- The encoded frame of a non-empty payload splits as
start delimiter, block stream of `data ++ [crc]`, end delimiter. -/
theorem cobs_encode_eq (b : List Nat) (hne : b ≠ []) :
    cobs_encode b true true =
      FRAME_CHAR :: (encodeBlocksF (b ++ [crc8 b 0x55]).length (b ++ [crc8 b 0x55]) ++
        [FRAME_CHAR]) := by
  simp [cobs_encode, hne]

/-- C1 (amended: the payload must be non-empty — see
`cobs_roundtrip_empty_counterexample`): for every non-empty byte string `b`
of length at most 320, feeding each byte of
`cobs_encode(b, prepend_start=true, use_crc=true)` in order into a fresh
`CobsByteDecoder(use_crc=true)` makes `decode_byte` return `None` for every
byte before the trailing 0x00 terminator, and return exactly `b` when the
terminator byte is processed. -/
theorem cobs_roundtrip (b : List Nat) (hne : b ≠ []) (hlen : b.length ≤ 320)
    (hwf : ∀ x ∈ b, x < 256) :
    decodeOutputs (CobsByteDecoder.mk0 true) (cobs_encode b true true) =
      List.replicate ((cobs_encode b true true).length - 1) none ++ [some b] := by
  have hextwf : ∀ x ∈ b ++ [crc8 b 0x55], x < 256 := by
    intro x hx
    rcases List.mem_append.mp hx with h | h
    · exact hwf x h
    · simp only [List.mem_singleton] at h
      subst h
      exact crc8_lt b 0x55 (by norm_num)
  have hbytes := encodeBlocksF_bytes (b ++ [crc8 b 0x55]).length (b ++ [crc8 b 0x55]) hextwf
  rw [cobs_encode_eq b hne]
  have h0 : (CobsByteDecoder.mk0 true).decode_byte FRAME_CHAR =
      (CobsByteDecoder.mk0 true, none) := rfl
  simp only [decodeOutputs, h0]
  rw [decodeOutputs_append]
  rw [decodeOutputs_nonzero _ _ hbytes]
  have hrun : decodeRun (CobsByteDecoder.mk0 true)
      (encodeBlocksF (b ++ [crc8 b 0x55]).length (b ++ [crc8 b 0x55])) =
      ⟨true, b ++ [crc8 b 0x55], 0⟩ := by
    have h := decodeRun_encodeBlocksF (b ++ [crc8 b 0x55]).length (b ++ [crc8 b 0x55])
      [] true [] le_rfl hextwf
      (by simp only [List.length_nil, List.length_append, List.length_cons, MAX_BUFFER]; omega)
    simpa [CobsByteDecoder.mk0] using h
  rw [hrun]
  have hterm : decodeOutputs (⟨true, b ++ [crc8 b 0x55], 0⟩ : CobsByteDecoder)
      [FRAME_CHAR] = [some b] := by
    simp only [decodeOutputs, FRAME_CHAR]
    rw [decode_byte_term_ok b hne]
  rw [hterm]
  simp only [List.length_cons, List.length_append, List.length_nil, List.replicate_succ]
  simp [List.replicate_succ]

/-- C1 counterexample: for the empty payload the encoder emits just the two
delimiters and the decoder returns `None` for both bytes — including the
terminator, where the claim demands the frame `some []`. -/
theorem cobs_roundtrip_empty_counterexample :
    cobs_encode [] true true = [0, 0] ∧
    decodeOutputs (CobsByteDecoder.mk0 true) (cobs_encode [] true true) = [none, none] ∧
    (none : Option (List Nat)) ≠ some [] :=
  ⟨by decide, by decide, by decide⟩

/-- Witness for `cobs_roundtrip` at the spec's RvStatus example payload. -/
theorem cobs_roundtrip_witness :
    decodeOutputs (CobsByteDecoder.mk0 true)
        (cobs_encode [0x07, 0x31, 0x00, 0x18, 0x80, 0x00] true true) =
      List.replicate
        ((cobs_encode [0x07, 0x31, 0x00, 0x18, 0x80, 0x00] true true).length - 1) none ++
        [some [0x07, 0x31, 0x00, 0x18, 0x80, 0x00]] :=
  cobs_roundtrip [0x07, 0x31, 0x00, 0x18, 0x80, 0x00] (by decide) (by decide) (by decide)

/-! ### Claim C6 — CRC corruption rejection

Parallel-run machinery: runs over the same zero-free bytes from states
with equal codes and equal buffer lengths append the same suffix and end
with the same code. -/

theorem insertZerosF_parallel : ∀ (fuel code : Nat) (buf₁ buf₂ : List Nat),
    buf₁.length = buf₂.length →
    ∃ t, insertZerosF fuel code buf₁ = buf₁ ++ t ∧
      insertZerosF fuel code buf₂ = buf₂ ++ t := by
  intro fuel
  induction fuel with
  | zero => intro code buf₁ buf₂ _; exact ⟨[], by simp [insertZerosF], by simp [insertZerosF]⟩
  | succ fuel ih =>
    intro code buf₁ buf₂ hlen
    by_cases hc : code = 0
    · exact ⟨[], by simp [insertZerosF, hc], by simp [insertZerosF, hc]⟩
    · by_cases hcap : buf₁.length < MAX_BUFFER
      · have hcap₂ : buf₂.length < MAX_BUFFER := hlen ▸ hcap
        obtain ⟨t, h₁, h₂⟩ := ih (code - FRAME_BYTE_COUNT_LSB)
          (buf₁ ++ [FRAME_CHAR]) (buf₂ ++ [FRAME_CHAR]) (by simp [hlen])
        refine ⟨FRAME_CHAR :: t, ?_, ?_⟩
        · simp only [insertZerosF, if_neg hc, if_pos hcap]
          simpa using h₁
        · simp only [insertZerosF, if_neg hc, if_pos hcap₂]
          simpa using h₂
      · have hcap₂ : ¬ buf₂.length < MAX_BUFFER := hlen ▸ hcap
        obtain ⟨t, h₁, h₂⟩ := ih (code - FRAME_BYTE_COUNT_LSB) buf₁ buf₂ hlen
        refine ⟨t, ?_, ?_⟩
        · simp only [insertZerosF, if_neg hc, if_neg hcap]
          exact h₁
        · simp only [insertZerosF, if_neg hc, if_neg hcap₂]
          exact h₂

theorem insertZeros_parallel (code : Nat) (buf₁ buf₂ : List Nat)
    (hlen : buf₁.length = buf₂.length) :
    ∃ t, insertZeros code buf₁ = buf₁ ++ t ∧ insertZeros code buf₂ = buf₂ ++ t :=
  insertZerosF_parallel code code buf₁ buf₂ hlen

/-- A full buffer is never extended by the implicit-zero loop. -/
theorem insertZerosF_full : ∀ (fuel code : Nat) (buf : List Nat),
    ¬ buf.length < MAX_BUFFER → insertZerosF fuel code buf = buf := by
  intro fuel
  induction fuel with
  | zero => intro code buf _; rfl
  | succ fuel ih =>
    intro code buf hcap
    by_cases hc : code = 0
    · simp [insertZerosF, hc]
    · simp only [insertZerosF, if_neg hc, if_neg hcap]
      exact ih _ buf hcap

theorem insertZeros_full (code : Nat) (buf : List Nat)
    (hcap : ¬ buf.length < MAX_BUFFER) : insertZeros code buf = buf :=
  insertZerosF_full code code buf hcap

/-- Stepping a mid-block state with a full buffer on a non-zero byte
drops the byte but evolves the code identically. -/
theorem decode_byte_step_full (uc : Bool) (buf : List Nat) (c x : Nat)
    (hx0 : x ≠ 0) (hx : x < 256) (hc : c ≠ 0) (hcap : ¬ buf.length < MAX_BUFFER) :
    (CobsByteDecoder.mk uc buf c).decode_byte x =
      (if (c - 1) &&& MAX_DATA_BYTES = 0
       then ⟨uc, insertZeros (c - 1) buf, 0⟩
       else ⟨uc, buf, c - 1⟩, none) := by
  by_cases hmod : (c - 1) &&& MAX_DATA_BYTES = 0 <;>
    (unfold CobsByteDecoder.decode_byte
     rw [and255_of_lt hx]
     simp [FRAME_CHAR, hx0, hc, hcap, hmod])

/-- Two decoders with the same code and equal-length buffers step
identically on a non-zero byte, appending the same suffix. -/
theorem decode_byte_parallel (uc : Bool) (c x : Nat) (hx0 : x ≠ 0) (hx : x < 256)
    (buf₁ buf₂ : List Nat) (hlen : buf₁.length = buf₂.length) :
    ∃ t c', (CobsByteDecoder.mk uc buf₁ c).decode_byte x = (⟨uc, buf₁ ++ t, c'⟩, none) ∧
      (CobsByteDecoder.mk uc buf₂ c).decode_byte x = (⟨uc, buf₂ ++ t, c'⟩, none) := by
  by_cases hc : c = 0
  · subst hc
    rw [decode_byte_code_set uc buf₁ x hx0 hx, decode_byte_code_set uc buf₂ x hx0 hx]
    by_cases hmod : x &&& MAX_DATA_BYTES = 0
    · obtain ⟨t, h₁, h₂⟩ := insertZeros_parallel x buf₁ buf₂ hlen
      exact ⟨t, 0, by rw [if_pos hmod, h₁], by rw [if_pos hmod, h₂]⟩
    · exact ⟨[], x, by rw [if_neg hmod]; simp, by rw [if_neg hmod]; simp⟩
  · by_cases hcap : buf₁.length < MAX_BUFFER
    · have hcap₂ : buf₂.length < MAX_BUFFER := hlen ▸ hcap
      rw [decode_byte_step uc buf₁ c x hx0 hx hc hcap,
        decode_byte_step uc buf₂ c x hx0 hx hc hcap₂]
      by_cases hmod : (c - 1) &&& MAX_DATA_BYTES = 0
      · obtain ⟨t, h₁, h₂⟩ := insertZeros_parallel (c - 1)
          (buf₁ ++ [x]) (buf₂ ++ [x]) (by simp [hlen])
        refine ⟨x :: t, 0, ?_, ?_⟩
        · rw [if_pos hmod, h₁]; simp
        · rw [if_pos hmod, h₂]; simp
      · exact ⟨[x], c - 1, by rw [if_neg hmod], by rw [if_neg hmod]⟩
    · have hcap₂ : ¬ buf₂.length < MAX_BUFFER := hlen ▸ hcap
      by_cases hmod : (c - 1) &&& MAX_DATA_BYTES = 0
      · refine ⟨[], 0, ?_, ?_⟩
        · rw [decode_byte_step_full uc buf₁ c x hx0 hx hc hcap, if_pos hmod,
            insertZeros_full (c - 1) buf₁ hcap]
          simp
        · rw [decode_byte_step_full uc buf₂ c x hx0 hx hc hcap₂, if_pos hmod,
            insertZeros_full (c - 1) buf₂ hcap₂]
          simp
      · refine ⟨[], c - 1, ?_, ?_⟩
        · rw [decode_byte_step_full uc buf₁ c x hx0 hx hc hcap, if_neg hmod]
          simp
        · rw [decode_byte_step_full uc buf₂ c x hx0 hx hc hcap₂, if_neg hmod]
          simp

/-- One mid-block state stepping on two different non-zero bytes appends
the respective byte plus the same implicit-zero suffix, with the same code. -/
theorem decode_byte_two (uc : Bool) (buf : List Nat) (c x v : Nat) (hc : c ≠ 0)
    (hx0 : x ≠ 0) (hx : x < 256) (hv0 : v ≠ 0) (hv : v < 256)
    (hcap : buf.length < MAX_BUFFER) :
    ∃ zs c', (CobsByteDecoder.mk uc buf c).decode_byte x = (⟨uc, buf ++ x :: zs, c'⟩, none) ∧
      (CobsByteDecoder.mk uc buf c).decode_byte v = (⟨uc, buf ++ v :: zs, c'⟩, none) := by
  rw [decode_byte_step uc buf c x hx0 hx hc hcap,
    decode_byte_step uc buf c v hv0 hv hc hcap]
  by_cases hmod : (c - 1) &&& MAX_DATA_BYTES = 0
  · obtain ⟨zs, h₁, h₂⟩ := insertZeros_parallel (c - 1) (buf ++ [x]) (buf ++ [v]) (by simp)
    refine ⟨zs, 0, ?_, ?_⟩
    · rw [if_pos hmod, h₁]; simp
    · rw [if_pos hmod, h₂]; simp
  · exact ⟨[], c - 1, by rw [if_neg hmod], by rw [if_neg hmod]⟩

/-- Parallel runs over zero-free bytes from states differing only in
buffer contents (same length) append the same suffix. -/
theorem decodeRun_parallel : ∀ (l : List Nat) (uc : Bool) (c : Nat) (buf₁ buf₂ : List Nat),
    (∀ x ∈ l, x ≠ 0 ∧ x < 256) → buf₁.length = buf₂.length →
    ∃ t c', decodeRun ⟨uc, buf₁, c⟩ l = ⟨uc, buf₁ ++ t, c'⟩ ∧
      decodeRun ⟨uc, buf₂, c⟩ l = ⟨uc, buf₂ ++ t, c'⟩ := by
  intro l
  induction l with
  | nil => intro uc c buf₁ buf₂ _ _; exact ⟨[], c, by simp [decodeRun], by simp [decodeRun]⟩
  | cons b t ih =>
    intro uc c buf₁ buf₂ hwf hlen
    have hb := hwf b (List.mem_cons_self _ _)
    obtain ⟨t₀, c₀, h₁, h₂⟩ := decode_byte_parallel uc c b hb.1 hb.2 buf₁ buf₂ hlen
    obtain ⟨t₁, c₁, g₁, g₂⟩ := ih uc c₀ (buf₁ ++ t₀) (buf₂ ++ t₀)
      (fun x hx => hwf x (List.mem_cons_of_mem _ hx)) (by simp [hlen])
    refine ⟨t₀ ++ t₁, c₁, ?_, ?_⟩
    · show decodeRun ((CobsByteDecoder.mk uc buf₁ c).decode_byte b).1 t = _
      rw [h₁]
      rw [g₁]
      simp
    · show decodeRun ((CobsByteDecoder.mk uc buf₂ c).decode_byte b).1 t = _
      rw [h₂]
      rw [g₂]
      simp

/-- CRC states that differ stay different under the same suffix. -/
theorem crc8_inj_state : ∀ (q : List Nat) (c₁ c₂ : Nat), c₁ < 256 → c₂ < 256 →
    c₁ ≠ c₂ → crc8 q c₁ ≠ crc8 q c₂ := by
  intro q
  induction q with
  | nil => intro c₁ c₂ _ _ hne; exact hne
  | cons b t ih =>
    intro c₁ c₂ h₁ h₂ hne
    rw [crc8_cons, crc8_cons]
    exact ih _ _ (crcTable_lt _) (crcTable_lt _) (crc_update_inj h₁ h₂ hne)

/-- Changing one byte changes the CRC. -/
theorem crc8_single_change (p q : List Nat) (x v : Nat) (hx : x < 256) (hv : v < 256)
    (hne : x ≠ v) : crc8 (p ++ x :: q) 0x55 ≠ crc8 (p ++ v :: q) 0x55 := by
  rw [crc8_append, crc8_append, crc8_cons, crc8_cons]
  have hc : crc8 p 0x55 < 256 := crc8_lt p 0x55 (by norm_num)
  apply crc8_inj_state q _ _ (crcTable_lt _) (crcTable_lt _)
  intro h
  apply hne
  have e₁ : (crc8 p 0x55 ^^^ x) &&& 0xFF = crc8 p 0x55 ^^^ x :=
    and255_of_lt (Nat.xor_lt_two_pow (n := 8) (by omega) (by omega))
  have e₂ : (crc8 p 0x55 ^^^ v) &&& 0xFF = crc8 p 0x55 ^^^ v :=
    and255_of_lt (Nat.xor_lt_two_pow (n := 8) (by omega) (by omega))
  rw [e₁, e₂] at h
  have hxv := crcTable_injOn (Nat.xor_lt_two_pow (n := 8) (by omega) (by omega))
    (Nat.xor_lt_two_pow (n := 8) (by omega) (by omega)) h
  have h2 := congrArg (fun y => crc8 p 0x55 ^^^ y) hxv
  simpa [← Nat.xor_assoc, Nat.xor_self] using h2

/-- Flipping a bit changes the byte. -/
theorem xor_flip_ne (x k : Nat) : x ^^^ 2 ^ k ≠ x := by
  intro h
  have hh := congrArg (fun y => x ^^^ y) h
  simp only [← Nat.xor_assoc, Nat.xor_self, Nat.zero_xor] at hh
  exact absurd hh (by positivity)

theorem mk0_true : CobsByteDecoder.mk0 true = ⟨true, [], 0⟩ := rfl

/-- C6 (amended: the flipped byte must be one of the frame's data bytes —
a payload or CRC byte, i.e. a position at which the streaming decoder is
mid-block, not one of the block code bytes — and the flip must not produce
0x00; flipping a code byte can yield a frame, see
`cobs_crc_bitflip_counterexample`, and the encoder's 382-byte output buffer
restricts payloads, so the 320-byte bound of C1 is kept): for every such
single-bit corruption of the encoded frame, the fresh decoder returns
`None` on every byte of the corrupted stream. -/
theorem cobs_bitflip_reject (b : List Nat) (hne : b ≠ []) (hlen : b.length ≤ 320)
    (hwf : ∀ x ∈ b, x < 256) (u : List Nat) (x : Nat) (rest : List Nat) (k : Nat)
    (hk : k < 8)
    (hsplit : encodeBlocksF (b ++ [crc8 b 0x55]).length (b ++ [crc8 b 0x55]) =
      u ++ x :: rest)
    (hmid : (decodeRun (CobsByteDecoder.mk0 true) (FRAME_CHAR :: u)).code ≠ 0)
    (hflip0 : x ^^^ 2 ^ k ≠ 0) :
    cobs_encode b true true = FRAME_CHAR :: (u ++ x :: rest) ++ [FRAME_CHAR] ∧
    decodeOutputs (CobsByteDecoder.mk0 true)
        (FRAME_CHAR :: (u ++ (x ^^^ 2 ^ k) :: rest) ++ [FRAME_CHAR]) =
      List.replicate (u.length + rest.length + 3) none := by
  constructor
  · rw [cobs_encode_eq b hne, hsplit]
    simp
  have hextwf : ∀ y ∈ b ++ [crc8 b 0x55], y < 256 := by
    intro y hy
    rcases List.mem_append.mp hy with h | h
    · exact hwf y h
    · simp only [List.mem_singleton] at h
      subst h
      exact crc8_lt b 0x55 (by norm_num)
  have hbytes := encodeBlocksF_bytes (b ++ [crc8 b 0x55]).length (b ++ [crc8 b 0x55]) hextwf
  rw [hsplit] at hbytes
  have hxwf : x ≠ 0 ∧ x < 256 := hbytes x (by simp)
  have huwf : ∀ y ∈ u, y ≠ 0 ∧ y < 256 := fun y hy => hbytes y (by simp [hy])
  have hrestwf : ∀ y ∈ rest, y ≠ 0 ∧ y < 256 := fun y hy => hbytes y (by simp [hy])
  have hv : x ^^^ 2 ^ k < 256 := by
    have h1 : x < 2 ^ 8 := by omega
    have h2 : 2 ^ k < 2 ^ 8 := Nat.pow_lt_pow_right (by norm_num) hk
    have := Nat.xor_lt_two_pow h1 h2
    omega
  have hvx : x ^^^ 2 ^ k ≠ x := xor_flip_ne x k
  -- the true run over the whole body ends with the full source in the buffer
  have hrun : decodeRun (CobsByteDecoder.mk0 true) (u ++ x :: rest) =
      ⟨true, b ++ [crc8 b 0x55], 0⟩ := by
    rw [← hsplit, mk0_true]
    have h := decodeRun_encodeBlocksF (b ++ [crc8 b 0x55]).length (b ++ [crc8 b 0x55])
      [] true [] le_rfl hextwf
      (by simp only [List.length_nil, List.length_append, List.length_cons, MAX_BUFFER]; omega)
    simpa using h
  -- the state after the prefix u
  obtain ⟨tu, cu, hsu, _⟩ := decodeRun_parallel u true 0 [] [] huwf rfl
  rw [mk0_true] at hrun hmid
  simp only [List.nil_append] at hsu
  have hmid' : cu ≠ 0 := by
    have : decodeRun (⟨true, [], 0⟩ : CobsByteDecoder) (FRAME_CHAR :: u) =
        ⟨true, tu, cu⟩ := by
      show decodeRun ((⟨true, [], 0⟩ : CobsByteDecoder).decode_byte FRAME_CHAR).1 u = _
      rw [show ((⟨true, [], 0⟩ : CobsByteDecoder).decode_byte FRAME_CHAR) =
        ((⟨true, [], 0⟩ : CobsByteDecoder), none) from rfl]
      exact hsu
    rw [this] at hmid
    exact hmid
  have hrun_u : decodeRun (⟨true, tu, cu⟩ : CobsByteDecoder) (x :: rest) =
      ⟨true, b ++ [crc8 b 0x55], 0⟩ := by
    rw [← hrun, decodeRun_append, hsu]
  -- the buffer after u is a strict prefix of the final buffer, so not full
  obtain ⟨tx, cx, hpx, _⟩ := decodeRun_parallel (x :: rest) true cu tu tu
    (fun y hy => by
      rcases List.mem_cons.mp hy with rfl | hy
      · exact hxwf
      · exact hrestwf y hy) rfl
  have hext_eq : tu ++ tx = b ++ [crc8 b 0x55] ∧ cx = 0 := by
    rw [hrun_u] at hpx
    exact ⟨(congrArg CobsByteDecoder.buf hpx).symm, (congrArg CobsByteDecoder.code hpx).symm⟩
  have hcap : tu.length < MAX_BUFFER := by
    have h1 := congrArg List.length hext_eq.1
    simp only [List.length_append, List.length_cons, List.length_nil] at h1
    simp only [MAX_BUFFER]
    omega
  -- step at the flipped position, in both runs
  obtain ⟨zs, c₁, hstep_x, hstep_v⟩ := decode_byte_two true tu cu x (x ^^^ 2 ^ k)
    hmid' hxwf.1 hxwf.2 hflip0 hv hcap
  obtain ⟨t3, c₃, hrx, hrv⟩ := decodeRun_parallel rest true c₁
    (tu ++ x :: zs) (tu ++ (x ^^^ 2 ^ k) :: zs) hrestwf (by simp)
  have htrue : decodeRun (⟨true, tu, cu⟩ : CobsByteDecoder) (x :: rest) =
      ⟨true, (tu ++ x :: zs) ++ t3, c₃⟩ := by
    show decodeRun ((⟨true, tu, cu⟩ : CobsByteDecoder).decode_byte x).1 rest = _
    rw [hstep_x]
    exact hrx
  have hE : (tu ++ x :: zs) ++ t3 = b ++ [crc8 b 0x55] ∧ c₃ = 0 := by
    rw [hrun_u] at htrue
    exact ⟨(congrArg CobsByteDecoder.buf htrue).symm, (congrArg CobsByteDecoder.code htrue).symm⟩
  have hcorr : decodeRun (⟨true, tu, cu⟩ : CobsByteDecoder) ((x ^^^ 2 ^ k) :: rest) =
      ⟨true, (tu ++ (x ^^^ 2 ^ k) :: zs) ++ t3, 0⟩ := by
    show decodeRun ((⟨true, tu, cu⟩ : CobsByteDecoder).decode_byte (x ^^^ 2 ^ k)).1 rest = _
    rw [hstep_v, hrv, hE.2]
  -- the corrupted final buffer fails the CRC check
  have hbad : crc8 ((tu ++ (x ^^^ 2 ^ k) :: zs) ++ t3).dropLast 0x55 ≠
      ((tu ++ (x ^^^ 2 ^ k) :: zs) ++ t3).getLast?.getD 0 := by
    have hE1 : tu ++ x :: (zs ++ t3) = b ++ [crc8 b 0x55] := by
      rw [← hE.1]
      simp
    rcases List.eq_nil_or_concat (zs ++ t3) with hzt | ⟨w, lastb, hzt⟩
    · have hzs : zs = [] := by
        cases zs with
        | nil => rfl
        | cons a s => simp at hzt
      have ht3 : t3 = [] := by
        cases t3 with
        | nil => rfl
        | cons a s => rw [hzs] at hzt; simp at hzt
      rw [hzs, ht3] at hE1 ⊢
      simp only [List.append_nil] at hE1 ⊢
      have hd := congrArg List.dropLast hE1
      have hg := congrArg List.getLast? hE1
      simp only [List.dropLast_concat, List.getLast?_concat] at hd hg
      have hx_eq : x = crc8 b 0x55 := by simpa using hg
      simp only [List.dropLast_concat, List.getLast?_concat, Option.getD_some]
      rw [hd, ← hx_eq]
      exact fun h => hvx h.symm
    · have hE2 : (tu ++ x :: w) ++ [lastb] = b ++ [crc8 b 0x55] := by
        rw [← hE1, hzt]
        simp
      have hb' : tu ++ x :: w = b ∧ lastb = crc8 b 0x55 := by
        have hd := congrArg List.dropLast hE2
        have hg := congrArg List.getLast? hE2
        simp only [List.dropLast_concat, List.getLast?_concat] at hd hg
        exact ⟨hd, by simpa using hg⟩
      have hshape : (tu ++ (x ^^^ 2 ^ k) :: zs) ++ t3 =
          (tu ++ (x ^^^ 2 ^ k) :: w) ++ [lastb] := by
        rw [show (tu ++ (x ^^^ 2 ^ k) :: zs) ++ t3 =
          tu ++ (x ^^^ 2 ^ k) :: (zs ++ t3) by simp, hzt]
        simp
      rw [hshape]
      simp only [List.dropLast_concat, List.getLast?_concat, Option.getD_some]
      rw [hb'.2]
      have := crc8_single_change tu w (x ^^^ 2 ^ k) x hv hxwf.2 hvx
      rw [← hb'.1]
      exact this
  -- assemble the outputs of the corrupted stream
  have hcwf : ∀ y ∈ u ++ (x ^^^ 2 ^ k) :: rest, y ≠ 0 ∧ y < 256 := by
    intro y hy
    rcases List.mem_append.mp hy with h | h
    · exact huwf y h
    · rcases List.mem_cons.mp h with rfl | h
      · exact ⟨hflip0, hv⟩
      · exact hrestwf y h
  have hcrun : decodeRun (⟨true, [], 0⟩ : CobsByteDecoder) (u ++ (x ^^^ 2 ^ k) :: rest) =
      ⟨true, (tu ++ (x ^^^ 2 ^ k) :: zs) ++ t3, 0⟩ := by
    rw [decodeRun_append, hsu, hcorr]
  show none :: decodeOutputs ((CobsByteDecoder.mk0 true).decode_byte FRAME_CHAR).1
      ((u ++ (x ^^^ 2 ^ k) :: rest) ++ [FRAME_CHAR]) = _
  rw [show ((CobsByteDecoder.mk0 true).decode_byte FRAME_CHAR) =
    (CobsByteDecoder.mk0 true, none) from rfl]
  rw [decodeOutputs_append, decodeOutputs_nonzero _ _ hcwf, mk0_true, hcrun]
  have hterm : decodeOutputs (⟨true, (tu ++ (x ^^^ 2 ^ k) :: zs) ++ t3, 0⟩ : CobsByteDecoder)
      [FRAME_CHAR] = [none] := by
    simp only [decodeOutputs, FRAME_CHAR]
    rw [decode_byte_term_bad _ hbad]
  rw [hterm]
  simp only [List.length_append, List.length_cons]
  rw [← List.replicate_succ', ← List.replicate_succ]
  congr 1

/-- C6 counterexample: for the payload `[0x01]`, the encoded frame is
`[0x00, 0x02, 0x01, 0xAB, 0x00]`; flipping bit 6 of the code byte 0x02
(index 1 — not a delimiter) gives `[0x00, 0x42, 0x01, 0xAB, 0x00]`, and
the decoder then yields the (wrong) frame `[0x01, 0xAB]` at the
terminator, because the extra implicit zero plays the role of a valid CRC
byte (`crc8(p ++ [crc8 p]) = 0`).  The claim demands that no frame ever be
returned. -/
theorem cobs_crc_bitflip_counterexample :
    cobs_encode [0x01] true true = [0x00, 0x02, 0x01, 0xAB, 0x00] ∧
    0x02 ^^^ 2 ^ 6 = 0x42 ∧
    decodeOutputs (CobsByteDecoder.mk0 true) [0x00, 0x42, 0x01, 0xAB, 0x00] =
      [none, none, none, none, some [0x01, 0xAB]] :=
  ⟨by decide, by decide, by decide⟩

/-- Witness for `cobs_bitflip_reject`: payload `[0x01]`, flipping bit 0 of
the CRC byte 0xAB (a data-byte position: the decoder is mid-block there). -/
theorem cobs_bitflip_reject_witness :
    cobs_encode [0x01] true true =
      FRAME_CHAR :: ([0x02, 0x01] ++ 0xAB :: []) ++ [FRAME_CHAR] ∧
    decodeOutputs (CobsByteDecoder.mk0 true)
        (FRAME_CHAR :: ([0x02, 0x01] ++ (0xAB ^^^ 2 ^ 0) :: []) ++ [FRAME_CHAR]) =
      List.replicate ([0x02, 0x01].length + ([] : List Nat).length + 3) none :=
  cobs_bitflip_reject [0x01] (by decide) (by decide) (by decide) [0x02, 0x01] 0xAB [] 0
    (by decide) (by decide) (by decide) (by decide)

example : tea_encrypt STEP2_CIPHER 0x12345678 = 0x823f2270 := by decide

example : calculate_step2_key [0x78, 0x56, 0x34, 0x12] [48, 57, 48, 51, 51, 54] =
    some ([112, 34, 63, 130] ++ [48, 57, 48, 51, 51, 54] ++ List.replicate 6 0) := by
  decide

theorem and_mask32_of_lt {x : Nat} (hx : x < 4294967296) : x &&& MASK32 = x := by
  have h := Nat.and_pow_two_sub_one_eq_mod x 32
  norm_num at h
  show x &&& 4294967295 = x
  rw [h]
  exact Nat.mod_eq_of_lt hx

theorem tea_loop_s_lt : ∀ (n : Nat) (st : Nat × Nat × Nat), st.2.1 < 4294967296 →
    (tea_loop n st).2.1 < 4294967296 := by
  intro n
  induction n with
  | zero => intro st h; exact h
  | succ n ih =>
    intro st _
    apply ih
    show (_ &&& MASK32) < 4294967296
    have h := Nat.and_pow_two_sub_one_eq_mod
      ((st.2.1 + (((st.1 <<< 4) + TEA_CONSTANT_1) ^^^ (st.1 + st.2.2) ^^^
        ((st.1 >>> 5) + TEA_CONSTANT_2)))) 32
    norm_num at h
    show _ &&& 4294967295 < 4294967296
    rw [h]
    exact Nat.mod_lt _ (by norm_num)

theorem tea_encrypt_lt (cipher seed : Nat) : tea_encrypt cipher seed < 4294967296 := by
  apply tea_loop_s_lt
  show seed &&& MASK32 < 4294967296
  have h := Nat.and_pow_two_sub_one_eq_mod seed 32
  norm_num at h
  show seed &&& 4294967295 < 4294967296
  rw [h]
  exact Nat.mod_lt _ (by norm_num)

/-! ### Claim C5 — Step-2 key layout -/

/-- C5: for every 4-byte seed and 6-byte ASCII PIN, `calculate_step2_key`
returns 16 bytes: the little-endian encoding of
`tea_encrypt(STEP2_CIPHER, le32 seed)` in bytes 0..3, the PIN bytes in
4..9, and zeros in 10..15. -/
theorem calculate_step2_key_layout (seed pin : List Nat)
    (hseed : seed.length = 4) (hpin : pin.length = 6) :
    ∃ key, calculate_step2_key seed pin = some key ∧
      key.length = 16 ∧
      key.take 4 = le_bytes4 (tea_encrypt STEP2_CIPHER (le32 seed)) ∧
      (key.drop 4).take 6 = pin ∧
      key.drop 10 = List.replicate 6 0 := by
  have hmask : tea_encrypt STEP2_CIPHER (le32 seed) &&& MASK32 =
      tea_encrypt STEP2_CIPHER (le32 seed) :=
    and_mask32_of_lt (tea_encrypt_lt _ _)
  have htake : pin.take 6 = pin := by
    rw [← hpin]
    exact List.take_length pin
  refine ⟨le_bytes4 (tea_encrypt STEP2_CIPHER (le32 seed)) ++ pin ++
    List.replicate 6 0, ?_, ?_, ?_, ?_, ?_⟩
  · unfold calculate_step2_key
    rw [if_neg (by omega)]
    simp only [hmask, htake, hpin]
    have hsplit12 : List.replicate 12 (0 : Nat) =
        List.replicate 6 0 ++ List.replicate 6 0 := by
      rw [← List.replicate_add]
    rw [hsplit12, List.take_left' (by simp [le_bytes4]), ← List.append_assoc,
      List.drop_left' (by simp [le_bytes4]), List.append_assoc]
  · simp [le_bytes4, hpin]
  · rw [List.append_assoc, List.take_left' (by simp [le_bytes4])]
  · rw [List.append_assoc, List.drop_left' (by simp [le_bytes4]),
      List.take_left' hpin]
  · rw [List.drop_left' (by simp [le_bytes4, hpin])]

/-- Witness for `calculate_step2_key_layout` at the spec's auth scenario
(seed notification `78 56 34 12`, PIN "090336"). -/
theorem calculate_step2_key_layout_witness :
    ∃ key, calculate_step2_key [0x78, 0x56, 0x34, 0x12]
        [0x30, 0x39, 0x30, 0x33, 0x33, 0x36] = some key ∧
      key.length = 16 ∧
      key.take 4 = le_bytes4 (tea_encrypt STEP2_CIPHER (le32 [0x78, 0x56, 0x34, 0x12])) ∧
      (key.drop 4).take 6 = [0x30, 0x39, 0x30, 0x33, 0x33, 0x36] ∧
      key.drop 10 = List.replicate 6 0 :=
  calculate_step2_key_layout [0x78, 0x56, 0x34, 0x12]
    [0x30, 0x39, 0x30, 0x33, 0x33, 0x36] (by decide) (by decide)

/-! ### Parser totality (claim C7) -/

theorem getB_eq_ok {d : List Nat} {i : Nat} (h : i < d.length) :
    getB d i = Except.ok (d.getD i 0) := by
  unfold getB
  cases hg : d.get? i with
  | none =>
    exact absurd (List.get?_eq_none.mp hg) (by omega)
  | some b =>
    have : d.getD i 0 = b := by
      rw [List.getD_eq_get?, hg]
      rfl
    rw [this]

theorem except_bind_ok {α β : Type} (a : α) (f : α → Except Unit β) :
    (Except.ok a >>= f : Except Unit β) = f a := rfl

theorem except_pure_bind {α β : Type} (a : α) (f : α → Except Unit β) :
    ((pure a : Except Unit α) >>= f) = f a := rfl

theorem except_isOk_map {α β : Type} (x : Except Unit α) (f : α → β) :
    (x.map f).isOk = x.isOk := by
  cases x <;> rfl

theorem except_isOk_bind_last {α β : Type} (x : Except Unit α) (g : α → β) :
    (x >>= fun r => Except.ok (g r) : Except Unit β).isOk = x.isOk := by
  cases x <;> rfl

theorem parse_gateway_information_isOk (d : List Nat) :
    (parse_gateway_information d).isOk = true := by
  unfold parse_gateway_information
  split
  · rfl
  · rename_i hlen
    rw [getB_eq_ok (show 1 < d.length by omega), getB_eq_ok (show 2 < d.length by omega),
      getB_eq_ok (show 3 < d.length by omega), getB_eq_ok (show 4 < d.length by omega)]
    rfl

theorem parse_rv_status_isOk (d : List Nat) : (parse_rv_status d).isOk = true := by
  unfold parse_rv_status
  split
  · rfl
  · rename_i hlen
    rw [getB_eq_ok (show 1 < d.length by omega), getB_eq_ok (show 2 < d.length by omega),
      getB_eq_ok (show 3 < d.length by omega), getB_eq_ok (show 4 < d.length by omega),
      getB_eq_ok (show 5 < d.length by omega)]
    rfl

theorem parse_relay_status_isOk (d : List Nat) : (parse_relay_status d).isOk = true := by
  unfold parse_relay_status
  split
  · rfl
  · rename_i hlen
    rw [getB_eq_ok (show 1 < d.length by omega), getB_eq_ok (show 2 < d.length by omega),
      getB_eq_ok (show 3 < d.length by omega)]
    simp only [except_bind_ok]
    by_cases h9 : 9 ≤ d.length
    · rw [if_pos h9, getB_eq_ok (show 5 < d.length by omega),
        getB_eq_ok (show 6 < d.length by omega)]
      rfl
    · rw [if_neg h9]
      rfl

theorem parse_device_online_isOk (d : List Nat) : (parse_device_online d).isOk = true := by
  unfold parse_device_online
  split
  · rfl
  · rename_i hlen
    rw [getB_eq_ok (show 1 < d.length by omega), getB_eq_ok (show 2 < d.length by omega),
      getB_eq_ok (show 3 < d.length by omega)]
    rfl

theorem lockBits_isOk (d : List Nat) (count : Nat)
    (hlen : 8 + (count + 7) / 8 ≤ d.length) :
    ∀ (rem idx : Nat), idx + rem ≤ count → (lockBits d idx rem).isOk = true := by
  intro rem
  induction rem with
  | zero => intro idx _; rfl
  | succ rem ih =>
    intro idx hidx
    unfold lockBits
    rw [getB_eq_ok (show 8 + idx / 8 < d.length by omega)]
    simp only [except_bind_ok]
    have h := ih (idx + 1) (by omega)
    cases hb : lockBits d (idx + 1) rem with
    | error e =>
      rw [hb] at h
      exact absurd h (by simp [Except.isOk, Except.toBool])
    | ok l => rfl

theorem parse_device_lock_isOk (d : List Nat) : (parse_device_lock d).isOk = true := by
  unfold parse_device_lock
  split
  · rfl
  · rename_i hlen4
    split
    · rename_i hlen8
      rw [getB_eq_ok (show 1 < d.length by omega), getB_eq_ok (show 6 < d.length by omega),
        getB_eq_ok (show 7 < d.length by omega)]
      simp only [except_bind_ok]
      by_cases hbits : 8 + ((d.getD 7 0 &&& 0xFF) + 7) / 8 ≤ d.length
      · rw [if_pos hbits]
        have h := lockBits_isOk d (d.getD 7 0 &&& 0xFF) hbits (d.getD 7 0 &&& 0xFF) 0 (by omega)
        cases hb : lockBits d 0 (d.getD 7 0 &&& 0xFF) with
        | error e => rw [hb] at h; exact absurd h (by simp [Except.isOk, Except.toBool])
        | ok l => rfl
      · rw [if_neg hbits]
        rfl
    · rw [getB_eq_ok (show 1 < d.length by omega), getB_eq_ok (show 2 < d.length by omega),
        getB_eq_ok (show 3 < d.length by omega)]
      rfl

theorem tankLoop_isOk (d : List Nat) (t : Nat) :
    ∀ (fuel idx : Nat), (tankLoop d t idx fuel).isOk = true := by
  intro fuel
  induction fuel with
  | zero => intro idx; rfl
  | succ fuel ih =>
    intro idx
    unfold tankLoop
    split
    · rename_i hidx
      rw [getB_eq_ok (show idx < d.length by omega),
        getB_eq_ok (show idx + 1 < d.length by omega)]
      simp only [except_bind_ok]
      have h := ih (idx + 2)
      cases hb : tankLoop d t (idx + 2) fuel with
      | error e =>
        rw [hb] at h
        exact absurd h (by simp [Except.isOk, Except.toBool])
      | ok l => rfl
    · rfl

theorem parse_tank_status_isOk (d : List Nat) : (parse_tank_status d).isOk = true := by
  unfold parse_tank_status
  split
  · rfl
  · rename_i hlen
    rw [getB_eq_ok (show 1 < d.length by omega)]
    exact tankLoop_isOk d _ d.length 2

theorem parse_tank_status_v2_isOk (d : List Nat) : (parse_tank_status_v2 d).isOk = true := by
  unfold parse_tank_status_v2
  split
  · rfl
  · rename_i hlen
    rw [getB_eq_ok (show 1 < d.length by omega), getB_eq_ok (show 2 < d.length by omega),
      getB_eq_ok (show 3 < d.length by omega)]
    rfl

theorem parse_dimmable_light_isOk (d : List Nat) :
    (parse_dimmable_light d).isOk = true := by
  unfold parse_dimmable_light
  split
  · rfl
  · rename_i hlen
    rw [getB_eq_ok (show 1 < d.length by omega), getB_eq_ok (show 2 < d.length by omega),
      getB_eq_ok (show 3 < d.length by omega)]
    simp only [except_bind_ok]
    by_cases h7 : 7 ≤ d.length
    · rw [if_pos h7, getB_eq_ok (show 6 < d.length by omega)]
      rfl
    · rw [if_neg h7, getB_eq_ok (show 4 < d.length by omega)]
      rfl

theorem parse_rgb_light_isOk (d : List Nat) : (parse_rgb_light d).isOk = true := by
  unfold parse_rgb_light
  split
  · rfl
  · rename_i hlen
    rw [getB_eq_ok (show 1 < d.length by omega), getB_eq_ok (show 2 < d.length by omega),
      getB_eq_ok (show 3 < d.length by omega)]
    simp only [except_bind_ok]
    by_cases h7 : 7 < d.length
    · rw [if_pos (show 4 < d.length by omega), getB_eq_ok (show 4 < d.length by omega)]
      simp only [except_bind_ok, except_pure_bind]
      rw [if_pos (show 5 < d.length by omega), getB_eq_ok (show 5 < d.length by omega)]
      simp only [except_bind_ok, except_pure_bind]
      rw [if_pos (show 6 < d.length by omega), getB_eq_ok (show 6 < d.length by omega)]
      simp only [except_bind_ok, except_pure_bind]
      rw [if_pos h7, getB_eq_ok h7]
      rfl
    · by_cases h6 : 6 < d.length
      · rw [if_pos (show 4 < d.length by omega), getB_eq_ok (show 4 < d.length by omega)]
        simp only [except_bind_ok, except_pure_bind]
        rw [if_pos (show 5 < d.length by omega), getB_eq_ok (show 5 < d.length by omega)]
        simp only [except_bind_ok, except_pure_bind]
        rw [if_pos h6, getB_eq_ok h6]
        simp only [except_bind_ok, except_pure_bind]
        rw [if_neg h7]
        rfl
      · by_cases h5 : 5 < d.length
        · rw [if_pos (show 4 < d.length by omega), getB_eq_ok (show 4 < d.length by omega)]
          simp only [except_bind_ok, except_pure_bind]
          rw [if_pos h5, getB_eq_ok h5]
          try simp only [except_bind_ok, except_pure_bind]
          rw [if_neg h6]
          try simp only [except_bind_ok, except_pure_bind]
          rw [if_neg h7]
          rfl
        · by_cases h4 : 4 < d.length
          · rw [if_pos h4, getB_eq_ok h4]
            try simp only [except_bind_ok, except_pure_bind]
            rw [if_neg h5]
            try simp only [except_bind_ok, except_pure_bind]
            rw [if_neg h6]
            try simp only [except_bind_ok, except_pure_bind]
            rw [if_neg h7]
            rfl
          · rw [if_neg h4]
            try simp only [except_bind_ok, except_pure_bind]
            rw [if_neg h5]
            try simp only [except_bind_ok, except_pure_bind]
            rw [if_neg h6]
            try simp only [except_bind_ok, except_pure_bind]
            rw [if_neg h7]
            rfl

theorem parse_generator_status_isOk (d : List Nat) :
    (parse_generator_status d).isOk = true := by
  unfold parse_generator_status
  split
  · rfl
  · rename_i hlen
    rw [getB_eq_ok (show 1 < d.length by omega), getB_eq_ok (show 2 < d.length by omega),
      getB_eq_ok (show 3 < d.length by omega)]
    rfl

theorem hvacLoop_isOk (d : List Nat) (t : Nat) :
    ∀ (fuel offset : Nat), (hvacLoop d t offset fuel).isOk = true := by
  intro fuel
  induction fuel with
  | zero => intro offset; rfl
  | succ fuel ih =>
    intro offset
    unfold hvacLoop
    split
    · rename_i hoff
      rw [getB_eq_ok (show offset < d.length by omega),
        getB_eq_ok (show offset + 1 < d.length by omega),
        getB_eq_ok (show offset + 2 < d.length by omega),
        getB_eq_ok (show offset + 3 < d.length by omega),
        getB_eq_ok (show offset + 4 < d.length by omega),
        getB_eq_ok (show offset + 5 < d.length by omega),
        getB_eq_ok (show offset + 6 < d.length by omega),
        getB_eq_ok (show offset + 7 < d.length by omega),
        getB_eq_ok (show offset + 8 < d.length by omega),
        getB_eq_ok (show offset + 9 < d.length by omega),
        getB_eq_ok (show offset + 10 < d.length by omega)]
      simp only [except_bind_ok]
      have h := ih (offset + 11)
      cases hb : hvacLoop d t (offset + 11) fuel with
      | error e =>
        rw [hb] at h
        exact absurd h (by simp [Except.isOk, Except.toBool])
      | ok l => rfl
    · rfl

theorem parse_hvac_status_isOk (d : List Nat) : (parse_hvac_status d).isOk = true := by
  unfold parse_hvac_status
  split
  · rfl
  · rename_i hlen
    rw [getB_eq_ok (show 1 < d.length by omega)]
    exact hvacLoop_isOk d _ d.length 2

theorem parse_cover_status_isOk (d : List Nat) : (parse_cover_status d).isOk = true := by
  unfold parse_cover_status
  split
  · rfl
  · rename_i hlen
    rw [getB_eq_ok (show 1 < d.length by omega), getB_eq_ok (show 2 < d.length by omega),
      getB_eq_ok (show 3 < d.length by omega)]
    simp only [except_bind_ok]
    by_cases h4 : 4 < d.length
    · rw [if_pos h4, getB_eq_ok h4]
      rfl
    · rw [if_neg h4]
      rfl

theorem parse_real_time_clock_isOk (d : List Nat) :
    (parse_real_time_clock d).isOk = true := by
  unfold parse_real_time_clock
  split
  · rfl
  · rename_i hlen
    rw [getB_eq_ok (show 1 < d.length by omega), getB_eq_ok (show 2 < d.length by omega),
      getB_eq_ok (show 3 < d.length by omega), getB_eq_ok (show 4 < d.length by omega),
      getB_eq_ok (show 5 < d.length by omega), getB_eq_ok (show 6 < d.length by omega),
      getB_eq_ok (show 7 < d.length by omega)]
    rfl

theorem parse_hour_meter_isOk (d : List Nat) : (parse_hour_meter d).isOk = true := by
  unfold parse_hour_meter
  split
  · rfl
  · rename_i hlen
    rw [getB_eq_ok (show 1 < d.length by omega), getB_eq_ok (show 2 < d.length by omega),
      getB_eq_ok (show 3 < d.length by omega)]
    simp only [except_bind_ok]
    by_cases h5 : 5 ≤ d.length
    · rw [if_pos h5, getB_eq_ok (show 4 < d.length by omega)]
      rfl
    · rw [if_neg h5]
      rfl

theorem metaLoop_isOk (d : List Nat) (t s : Nat) :
    ∀ (rem offset index : Nat), (metaLoop d t s offset index rem).isOk = true := by
  intro rem
  induction rem with
  | zero => intro offset index; rfl
  | succ rem ih =>
    intro offset index
    unfold metaLoop
    split
    · rename_i hoff
      rw [getB_eq_ok (show offset < d.length by omega),
        getB_eq_ok (show offset + 1 < d.length by omega)]
      simp only [except_bind_ok]
      split
      · rename_i hentry
        rw [getB_eq_ok (show offset + 2 < d.length by omega),
          getB_eq_ok (show offset + 3 < d.length by omega),
          getB_eq_ok (show offset + 4 < d.length by omega)]
        simp only [except_bind_ok]
        have h := ih (offset + (d.getD (offset + 1) 0 &&& 0xFF) + 2) (index + 1)
        cases hb : metaLoop d t s (offset + (d.getD (offset + 1) 0 &&& 0xFF) + 2)
            (index + 1) rem with
        | error e =>
          rw [hb] at h
          exact absurd h (by simp [Except.isOk, Except.toBool])
        | ok l => rfl
      · exact ih _ _
    · rfl

theorem parse_metadata_response_isOk (d : List Nat) :
    (parse_metadata_response d).isOk = true := by
  unfold parse_metadata_response
  split
  · rfl
  · rename_i hlen
    rw [getB_eq_ok (show 4 < d.length by omega), getB_eq_ok (show 5 < d.length by omega),
      getB_eq_ok (show 6 < d.length by omega)]
    exact metaLoop_isOk d _ _ _ 7 0

theorem parse_event_cons (t : Nat) (rest : List Nat) :
    parse_event (t :: rest) =
      (if t = 0x01 then
        (parse_gateway_information (t :: rest)).map (optR .gatewayInformation)
      else if t = 0x07 then (parse_rv_status (t :: rest)).map (optR .rvStatus)
      else if t = 0x05 ∨ t = 0x06 then
        (parse_relay_status (t :: rest)).map (optR .relayStatus)
      else if t = 0x03 then (parse_device_online (t :: rest)).map (optR .deviceOnline)
      else if t = 0x04 then
        (parse_device_lock (t :: rest)).map (optR fun s => match s with
          | Sum.inl sl => .systemLockout sl
          | Sum.inr dl => .deviceLock dl)
      else if t = 0x0C then (parse_tank_status (t :: rest)).map .tankLevels
      else if t = 0x1B then (parse_tank_status_v2 (t :: rest)).map (optR .tankLevel)
      else if t = 0x08 then (parse_dimmable_light (t :: rest)).map (optR .dimmableLight)
      else if t = 0x09 then (parse_rgb_light (t :: rest)).map (optR .rgbLight)
      else if t = 0x0A then
        (parse_generator_status (t :: rest)).map (optR .generatorStatus)
      else if t = 0x0B then (parse_hvac_status (t :: rest)).map .hvacZones
      else if t = 0x0D ∨ t = 0x0E then
        (parse_cover_status (t :: rest)).map (optR .coverStatus)
      else if t = 0x0F then (parse_hour_meter (t :: rest)).map (optR .hourMeter)
      else if t = 0x20 then (parse_real_time_clock (t :: rest)).map (optR .realTimeClock)
      else if t = 0x02 then (parse_metadata_response (t :: rest)).map .metadata
      else if t = 0x1A then Except.ok ParseResult.none
      else Except.ok (ParseResult.raw (t :: rest))) := rfl

theorem parse_gateway_information_short {d : List Nat} (h : d.length < 5) :
    parse_gateway_information d = Except.ok none := by
  unfold parse_gateway_information
  rw [if_pos h]

theorem parse_rv_status_short {d : List Nat} (h : d.length < 6) :
    parse_rv_status d = Except.ok none := by
  unfold parse_rv_status
  rw [if_pos h]

theorem parse_relay_status_short {d : List Nat} (h : d.length < 5) :
    parse_relay_status d = Except.ok none := by
  unfold parse_relay_status
  rw [if_pos h]

theorem parse_device_online_short {d : List Nat} (h : d.length < 4) :
    parse_device_online d = Except.ok none := by
  unfold parse_device_online
  rw [if_pos h]

theorem parse_device_lock_short {d : List Nat} (h : d.length < 4) :
    parse_device_lock d = Except.ok none := by
  unfold parse_device_lock
  rw [if_pos h]

theorem parse_tank_status_short {d : List Nat} (h : d.length < 4) :
    parse_tank_status d = Except.ok [] := by
  unfold parse_tank_status
  rw [if_pos h]

theorem parse_tank_status_v2_short {d : List Nat} (h : d.length < 4) :
    parse_tank_status_v2 d = Except.ok none := by
  unfold parse_tank_status_v2
  rw [if_pos h]

theorem parse_dimmable_light_short {d : List Nat} (h : d.length < 5) :
    parse_dimmable_light d = Except.ok none := by
  unfold parse_dimmable_light
  rw [if_pos h]

theorem parse_rgb_light_short {d : List Nat} (h : d.length < 5) :
    parse_rgb_light d = Except.ok none := by
  unfold parse_rgb_light
  rw [if_pos h]

theorem parse_generator_status_short {d : List Nat} (h : d.length < 4) :
    parse_generator_status d = Except.ok none := by
  unfold parse_generator_status
  rw [if_pos h]

theorem parse_hvac_status_short {d : List Nat} (h : d.length < 4) :
    parse_hvac_status d = Except.ok [] := by
  unfold parse_hvac_status
  rw [if_pos h]

theorem parse_cover_status_short {d : List Nat} (h : d.length < 4) :
    parse_cover_status d = Except.ok none := by
  unfold parse_cover_status
  rw [if_pos h]

theorem parse_real_time_clock_short {d : List Nat} (h : d.length < 8) :
    parse_real_time_clock d = Except.ok none := by
  unfold parse_real_time_clock
  rw [if_pos h]

theorem parse_hour_meter_short {d : List Nat} (h : d.length < 4) :
    parse_hour_meter d = Except.ok none := by
  unfold parse_hour_meter
  rw [if_pos h]

theorem parse_metadata_response_short {d : List Nat} (h : d.length < 7) :
    parse_metadata_response d = Except.ok [] := by
  unfold parse_metadata_response
  rw [if_pos h]

set_option maxHeartbeats 1600000 in
/-- C7: `parse_event` is total — every byte-string input produces a value
without an out-of-bounds access — and any input shorter than its event
type's minimum size yields an absent result. -/
theorem parse_event_total (d : List Nat) :
    (parse_event d).isOk = true ∧
    (∀ t m, d.head? = some t → minEventSize t = some m → d.length < m →
      ∃ r, parse_event d = Except.ok r ∧ isAbsent r = true) := by
  constructor
  · cases d with
    | nil => rfl
    | cons a rest =>
      rw [parse_event_cons]
      by_cases h1 : a = 0x01
      · rw [if_pos h1, except_isOk_map]
        exact parse_gateway_information_isOk _
      · rw [if_neg h1]
        by_cases h2 : a = 0x07
        · rw [if_pos h2, except_isOk_map]
          exact parse_rv_status_isOk _
        · rw [if_neg h2]
          by_cases h3 : a = 0x05 ∨ a = 0x06
          · rw [if_pos h3, except_isOk_map]
            exact parse_relay_status_isOk _
          · rw [if_neg h3]
            by_cases h4 : a = 0x03
            · rw [if_pos h4, except_isOk_map]
              exact parse_device_online_isOk _
            · rw [if_neg h4]
              by_cases h5 : a = 0x04
              · rw [if_pos h5, except_isOk_map]
                exact parse_device_lock_isOk _
              · rw [if_neg h5]
                by_cases h6 : a = 0x0C
                · rw [if_pos h6, except_isOk_map]
                  exact parse_tank_status_isOk _
                · rw [if_neg h6]
                  by_cases h7 : a = 0x1B
                  · rw [if_pos h7, except_isOk_map]
                    exact parse_tank_status_v2_isOk _
                  · rw [if_neg h7]
                    by_cases h8 : a = 0x08
                    · rw [if_pos h8, except_isOk_map]
                      exact parse_dimmable_light_isOk _
                    · rw [if_neg h8]
                      by_cases h9 : a = 0x09
                      · rw [if_pos h9, except_isOk_map]
                        exact parse_rgb_light_isOk _
                      · rw [if_neg h9]
                        by_cases h10 : a = 0x0A
                        · rw [if_pos h10, except_isOk_map]
                          exact parse_generator_status_isOk _
                        · rw [if_neg h10]
                          by_cases h11 : a = 0x0B
                          · rw [if_pos h11, except_isOk_map]
                            exact parse_hvac_status_isOk _
                          · rw [if_neg h11]
                            by_cases h12 : a = 0x0D ∨ a = 0x0E
                            · rw [if_pos h12, except_isOk_map]
                              exact parse_cover_status_isOk _
                            · rw [if_neg h12]
                              by_cases h13 : a = 0x0F
                              · rw [if_pos h13, except_isOk_map]
                                exact parse_hour_meter_isOk _
                              · rw [if_neg h13]
                                by_cases h14 : a = 0x20
                                · rw [if_pos h14, except_isOk_map]
                                  exact parse_real_time_clock_isOk _
                                · rw [if_neg h14]
                                  by_cases h15 : a = 0x02
                                  · rw [if_pos h15, except_isOk_map]
                                    exact parse_metadata_response_isOk _
                                  · rw [if_neg h15]
                                    by_cases h16 : a = 0x1A
                                    · rw [if_pos h16]
                                      rfl
                                    · rw [if_neg h16]
                                      rfl
  · intro t m hhd hmin hlen
    unfold minEventSize at hmin
    cases d with
    | nil => exact absurd hhd (by simp)
    | cons a rest =>
      rw [List.head?_cons, Option.some.injEq] at hhd
      subst hhd
      by_cases h1 : a = 0x01
      · rw [if_pos h1] at hmin
        injection hmin with hm
        rw [parse_event_cons, if_pos h1, parse_gateway_information_short (by omega)]
        exact ⟨ParseResult.none, rfl, rfl⟩
      · rw [if_neg h1] at hmin
        by_cases h2 : a = 0x07
        · rw [if_pos h2] at hmin
          injection hmin with hm
          rw [parse_event_cons, if_neg h1, if_pos h2, parse_rv_status_short (by omega)]
          exact ⟨ParseResult.none, rfl, rfl⟩
        · rw [if_neg h2] at hmin
          by_cases h3 : a = 0x05 ∨ a = 0x06
          · rw [if_pos h3] at hmin
            injection hmin with hm
            rw [parse_event_cons, if_neg h1, if_neg h2, if_pos h3, parse_relay_status_short (by omega)]
            exact ⟨ParseResult.none, rfl, rfl⟩
          · rw [if_neg h3] at hmin
            by_cases h4 : a = 0x03
            · rw [if_pos h4] at hmin
              injection hmin with hm
              rw [parse_event_cons, if_neg h1, if_neg h2, if_neg h3, if_pos h4, parse_device_online_short (by omega)]
              exact ⟨ParseResult.none, rfl, rfl⟩
            · rw [if_neg h4] at hmin
              by_cases h5 : a = 0x04
              · rw [if_pos h5] at hmin
                injection hmin with hm
                rw [parse_event_cons, if_neg h1, if_neg h2, if_neg h3, if_neg h4, if_pos h5, parse_device_lock_short (by omega)]
                exact ⟨ParseResult.none, rfl, rfl⟩
              · rw [if_neg h5] at hmin
                by_cases h6 : a = 0x0C
                · rw [if_pos h6] at hmin
                  injection hmin with hm
                  rw [parse_event_cons, if_neg h1, if_neg h2, if_neg h3, if_neg h4, if_neg h5, if_pos h6, parse_tank_status_short (by omega)]
                  exact ⟨ParseResult.tankLevels [], rfl, rfl⟩
                · rw [if_neg h6] at hmin
                  by_cases h7 : a = 0x1B
                  · rw [if_pos h7] at hmin
                    injection hmin with hm
                    rw [parse_event_cons, if_neg h1, if_neg h2, if_neg h3, if_neg h4, if_neg h5, if_neg h6, if_pos h7, parse_tank_status_v2_short (by omega)]
                    exact ⟨ParseResult.none, rfl, rfl⟩
                  · rw [if_neg h7] at hmin
                    by_cases h8 : a = 0x08
                    · rw [if_pos h8] at hmin
                      injection hmin with hm
                      rw [parse_event_cons, if_neg h1, if_neg h2, if_neg h3, if_neg h4, if_neg h5, if_neg h6, if_neg h7, if_pos h8, parse_dimmable_light_short (by omega)]
                      exact ⟨ParseResult.none, rfl, rfl⟩
                    · rw [if_neg h8] at hmin
                      by_cases h9 : a = 0x09
                      · rw [if_pos h9] at hmin
                        injection hmin with hm
                        rw [parse_event_cons, if_neg h1, if_neg h2, if_neg h3, if_neg h4, if_neg h5, if_neg h6, if_neg h7, if_neg h8, if_pos h9, parse_rgb_light_short (by omega)]
                        exact ⟨ParseResult.none, rfl, rfl⟩
                      · rw [if_neg h9] at hmin
                        by_cases h10 : a = 0x0A
                        · rw [if_pos h10] at hmin
                          injection hmin with hm
                          rw [parse_event_cons, if_neg h1, if_neg h2, if_neg h3, if_neg h4, if_neg h5, if_neg h6, if_neg h7, if_neg h8, if_neg h9, if_pos h10, parse_generator_status_short (by omega)]
                          exact ⟨ParseResult.none, rfl, rfl⟩
                        · rw [if_neg h10] at hmin
                          by_cases h11 : a = 0x0B
                          · rw [if_pos h11] at hmin
                            injection hmin with hm
                            rw [parse_event_cons, if_neg h1, if_neg h2, if_neg h3, if_neg h4, if_neg h5, if_neg h6, if_neg h7, if_neg h8, if_neg h9, if_neg h10, if_pos h11, parse_hvac_status_short (by omega)]
                            exact ⟨ParseResult.hvacZones [], rfl, rfl⟩
                          · rw [if_neg h11] at hmin
                            by_cases h12 : a = 0x0D ∨ a = 0x0E
                            · rw [if_pos h12] at hmin
                              injection hmin with hm
                              rw [parse_event_cons, if_neg h1, if_neg h2, if_neg h3, if_neg h4, if_neg h5, if_neg h6, if_neg h7, if_neg h8, if_neg h9, if_neg h10, if_neg h11, if_pos h12, parse_cover_status_short (by omega)]
                              exact ⟨ParseResult.none, rfl, rfl⟩
                            · rw [if_neg h12] at hmin
                              by_cases h13 : a = 0x0F
                              · rw [if_pos h13] at hmin
                                injection hmin with hm
                                rw [parse_event_cons, if_neg h1, if_neg h2, if_neg h3, if_neg h4, if_neg h5, if_neg h6, if_neg h7, if_neg h8, if_neg h9, if_neg h10, if_neg h11, if_neg h12, if_pos h13, parse_hour_meter_short (by omega)]
                                exact ⟨ParseResult.none, rfl, rfl⟩
                              · rw [if_neg h13] at hmin
                                by_cases h14 : a = 0x20
                                · rw [if_pos h14] at hmin
                                  injection hmin with hm
                                  rw [parse_event_cons, if_neg h1, if_neg h2, if_neg h3, if_neg h4, if_neg h5, if_neg h6, if_neg h7, if_neg h8, if_neg h9, if_neg h10, if_neg h11, if_neg h12, if_neg h13, if_pos h14, parse_real_time_clock_short (by omega)]
                                  exact ⟨ParseResult.none, rfl, rfl⟩
                                · rw [if_neg h14] at hmin
                                  by_cases h15 : a = 0x02
                                  · rw [if_pos h15] at hmin
                                    injection hmin with hm
                                    rw [parse_event_cons, if_neg h1, if_neg h2, if_neg h3, if_neg h4, if_neg h5, if_neg h6, if_neg h7, if_neg h8, if_neg h9, if_neg h10, if_neg h11, if_neg h12, if_neg h13, if_neg h14, if_pos h15, parse_metadata_response_short (by omega)]
                                    exact ⟨ParseResult.metadata [], rfl, rfl⟩
                                  · rw [if_neg h15] at hmin
                                    exact absurd hmin (by simp)

/-- Witness for `parse_event_total` at the short RvStatus input `[0x07, 0x00]`. -/
theorem parse_event_total_witness :
    (parse_event [0x07, 0x00]).isOk = true ∧
    ∃ r, parse_event [0x07, 0x00] = Except.ok r ∧ isAbsent r = true :=
  ⟨(parse_event_total [0x07, 0x00]).1,
    (parse_event_total [0x07, 0x00]).2 0x07 6 (by decide) (by decide) (by decide)⟩

/-! ### Claim C4 — GatewayInformation layout -/

/-- C4 counterexample: two 13-byte `0x01` frames that differ only in bytes
5..12 — and whose little-endian u32 values at bytes 5..8 differ — parse to
the same record, so the parsed record cannot carry
`device_table_crc` = LE(bytes 5..8) as the claim states (the parser reads
only bytes 1..4 and the dataclass has no CRC fields). -/
theorem parse_gateway_information_no_crc_counterexample :
    parse_event [0x01, 2, 3, 4, 5, 0x11, 0x22, 0x33, 0x44, 0x55, 0x66, 0x77, 0x88] =
      parse_event [0x01, 2, 3, 4, 5, 0, 0, 0, 0, 0, 0, 0, 0] ∧
    le32 [0x11, 0x22, 0x33, 0x44] ≠ le32 [0, 0, 0, 0] :=
  ⟨by decide, by decide⟩

/-- C4 (amended: the parser returns only the four header fields —
`protocol_version` = byte 1, `options` = byte 2, `device_count` = byte 3,
`table_id` = byte 4 — for every `0x01` frame of length at least 5; no CRC
fields are parsed). -/
theorem parse_gateway_information_layout (d : List Nat) (hhd : d.head? = some 0x01)
    (hlen : 5 ≤ d.length) :
    parse_event d = Except.ok (ParseResult.gatewayInformation
      { protocol_version := d.getD 1 0, options := d.getD 2 0,
        device_count := d.getD 3 0, table_id := d.getD 4 0 }) := by
  cases d with
  | nil => exact absurd hhd (by simp)
  | cons a rest =>
    rw [List.head?_cons, Option.some.injEq] at hhd
    subst hhd
    have hdisp : parse_event (1 :: rest) =
        (parse_gateway_information (1 :: rest)).map (optR ParseResult.gatewayInformation) :=
      rfl
    rw [hdisp]
    unfold parse_gateway_information
    rw [if_neg (by omega), getB_eq_ok (show 1 < (1 :: rest).length by omega),
      getB_eq_ok (show 2 < (1 :: rest).length by omega),
      getB_eq_ok (show 3 < (1 :: rest).length by omega),
      getB_eq_ok (show 4 < (1 :: rest).length by omega)]
    rfl

/-- Witness for `parse_gateway_information_layout`. -/
theorem parse_gateway_information_layout_witness :
    parse_event [0x01, 9, 8, 7, 6] = Except.ok (ParseResult.gatewayInformation
      { protocol_version := [0x01, 9, 8, 7, 6].getD 1 0,
        options := [0x01, 9, 8, 7, 6].getD 2 0,
        device_count := [0x01, 9, 8, 7, 6].getD 3 0,
        table_id := [0x01, 9, 8, 7, 6].getD 4 0 }) :=
  parse_gateway_information_layout [0x01, 9, 8, 7, 6] (by decide) (by decide)

/-! ### Claim C8 — RvStatus sentinels -/

/-- C8 counterexample: a frame with raw voltage `0x7FFF` parses with
voltage present (`0x7FFF/256` V); the claim says `0x7FFF` is a voltage
sentinel meaning absent.  Only the temperature treats `0x7FFF` as a
sentinel. -/
theorem parse_rv_status_7fff_counterexample :
    parse_event [0x07, 0x7F, 0xFF, 0x00, 0x00, 0x00] =
      Except.ok (ParseResult.rvStatus
        { voltage := some (((0x7FFF : ℕ) : ℚ) / 256),
          temperature := some (((0 : ℕ) : ℚ) / 256),
          feature_flags := 0 }) ∧
    some (((0x7FFF : ℕ) : ℚ) / 256) ≠ (none : Option ℚ) :=
  ⟨rfl, by simp⟩

/-- C8 (amended: the voltage sentinel is `0xFFFF` only; `0x7FFF` is a
sentinel only for the temperature): for every `0x07` frame of length at
least 6, the parsed `RvStatus` has voltage absent iff the raw big-endian
u16 at bytes 1..2 is `0xFFFF` and equal to `raw/256` otherwise,
temperature absent iff the raw u16 at bytes 3..4 is `0xFFFF` or `0x7FFF`
and equal to `raw/256` otherwise, and `feature_flags` = byte 5. -/
theorem parse_rv_status_sentinels (d : List Nat) (hhd : d.head? = some 0x07)
    (hlen : 6 ≤ d.length) :
    ∃ r, parse_event d = Except.ok (ParseResult.rvStatus r) ∧
      (r.voltage = none ↔ ((d.getD 1 0) <<< 8 ||| d.getD 2 0) = 0xFFFF) ∧
      (((d.getD 1 0) <<< 8 ||| d.getD 2 0) ≠ 0xFFFF →
        r.voltage = some (((((d.getD 1 0) <<< 8 ||| d.getD 2 0)) : ℚ) / 256)) ∧
      (r.temperature = none ↔ (((d.getD 3 0) <<< 8 ||| d.getD 4 0) = 0xFFFF ∨
        ((d.getD 3 0) <<< 8 ||| d.getD 4 0) = 0x7FFF)) ∧
      (¬(((d.getD 3 0) <<< 8 ||| d.getD 4 0) = 0xFFFF ∨
          ((d.getD 3 0) <<< 8 ||| d.getD 4 0) = 0x7FFF) →
        r.temperature = some (((((d.getD 3 0) <<< 8 ||| d.getD 4 0)) : ℚ) / 256)) ∧
      r.feature_flags = d.getD 5 0 := by
  have heval : parse_event d = Except.ok (ParseResult.rvStatus
      { voltage := if ((d.getD 1 0) <<< 8 ||| d.getD 2 0) = 0xFFFF then none
          else some (((((d.getD 1 0) <<< 8 ||| d.getD 2 0)) : ℚ) / 256),
        temperature := if ((d.getD 3 0) <<< 8 ||| d.getD 4 0) = 0xFFFF ∨
            ((d.getD 3 0) <<< 8 ||| d.getD 4 0) = 0x7FFF then none
          else some (((((d.getD 3 0) <<< 8 ||| d.getD 4 0)) : ℚ) / 256),
        feature_flags := d.getD 5 0 }) := by
    cases d with
    | nil => exact absurd hhd (by simp)
    | cons a rest =>
      rw [List.head?_cons, Option.some.injEq] at hhd
      subst hhd
      have hdisp : parse_event (7 :: rest) =
          (parse_rv_status (7 :: rest)).map (optR ParseResult.rvStatus) :=
        rfl
      rw [hdisp]
      unfold parse_rv_status
      rw [if_neg (by omega), getB_eq_ok (show 1 < (7 :: rest).length by omega),
        getB_eq_ok (show 2 < (7 :: rest).length by omega),
        getB_eq_ok (show 3 < (7 :: rest).length by omega),
        getB_eq_ok (show 4 < (7 :: rest).length by omega),
        getB_eq_ok (show 5 < (7 :: rest).length by omega)]
      rfl
  refine ⟨_, heval, ?_, ?_, ?_, ?_, rfl⟩
  · show (if ((d.getD 1 0) <<< 8 ||| d.getD 2 0) = 0xFFFF then (none : Option ℚ)
        else some (((((d.getD 1 0) <<< 8 ||| d.getD 2 0)) : ℚ) / 256)) = none ↔
      ((d.getD 1 0) <<< 8 ||| d.getD 2 0) = 0xFFFF
    by_cases hv : ((d.getD 1 0) <<< 8 ||| d.getD 2 0) = 0xFFFF
    · rw [if_pos hv]
      exact iff_of_true rfl hv
    · rw [if_neg hv]
      exact iff_of_false (by simp) hv
  · intro hv
    show (if ((d.getD 1 0) <<< 8 ||| d.getD 2 0) = 0xFFFF then (none : Option ℚ)
        else some (((((d.getD 1 0) <<< 8 ||| d.getD 2 0)) : ℚ) / 256)) =
      some (((((d.getD 1 0) <<< 8 ||| d.getD 2 0)) : ℚ) / 256)
    rw [if_neg hv]
  · show (if ((d.getD 3 0) <<< 8 ||| d.getD 4 0) = 0xFFFF ∨
          ((d.getD 3 0) <<< 8 ||| d.getD 4 0) = 0x7FFF then (none : Option ℚ)
        else some (((((d.getD 3 0) <<< 8 ||| d.getD 4 0)) : ℚ) / 256)) = none ↔
      (((d.getD 3 0) <<< 8 ||| d.getD 4 0) = 0xFFFF ∨
        ((d.getD 3 0) <<< 8 ||| d.getD 4 0) = 0x7FFF)
    by_cases ht : ((d.getD 3 0) <<< 8 ||| d.getD 4 0) = 0xFFFF ∨
        ((d.getD 3 0) <<< 8 ||| d.getD 4 0) = 0x7FFF
    · rw [if_pos ht]
      exact iff_of_true rfl ht
    · rw [if_neg ht]
      exact iff_of_false (by simp) ht
  · intro ht
    show (if ((d.getD 3 0) <<< 8 ||| d.getD 4 0) = 0xFFFF ∨
          ((d.getD 3 0) <<< 8 ||| d.getD 4 0) = 0x7FFF then (none : Option ℚ)
        else some (((((d.getD 3 0) <<< 8 ||| d.getD 4 0)) : ℚ) / 256)) =
      some (((((d.getD 3 0) <<< 8 ||| d.getD 4 0)) : ℚ) / 256)
    rw [if_neg ht]

/-- Witness for `parse_rv_status_sentinels` at the spec's example RvStatus
frame (12.063 V, 24.5 °F). -/
theorem parse_rv_status_sentinels_witness :
    ∃ r, parse_event [0x07, 0x31, 0x00, 0x18, 0x80, 0x00] =
        Except.ok (ParseResult.rvStatus r) ∧
      (r.voltage = none ↔
        (([0x07, 0x31, 0x00, 0x18, 0x80, 0x00].getD 1 0) <<< 8 |||
          [0x07, 0x31, 0x00, 0x18, 0x80, 0x00].getD 2 0) = 0xFFFF) ∧
      ((([0x07, 0x31, 0x00, 0x18, 0x80, 0x00].getD 1 0) <<< 8 |||
          [0x07, 0x31, 0x00, 0x18, 0x80, 0x00].getD 2 0) ≠ 0xFFFF →
        r.voltage = some ((((([0x07, 0x31, 0x00, 0x18, 0x80, 0x00].getD 1 0) <<< 8 |||
          [0x07, 0x31, 0x00, 0x18, 0x80, 0x00].getD 2 0 : ℕ)) : ℚ) / 256)) ∧
      (r.temperature = none ↔
        ((([0x07, 0x31, 0x00, 0x18, 0x80, 0x00].getD 3 0) <<< 8 |||
          [0x07, 0x31, 0x00, 0x18, 0x80, 0x00].getD 4 0) = 0xFFFF ∨
         (([0x07, 0x31, 0x00, 0x18, 0x80, 0x00].getD 3 0) <<< 8 |||
          [0x07, 0x31, 0x00, 0x18, 0x80, 0x00].getD 4 0) = 0x7FFF)) ∧
      (¬((([0x07, 0x31, 0x00, 0x18, 0x80, 0x00].getD 3 0) <<< 8 |||
          [0x07, 0x31, 0x00, 0x18, 0x80, 0x00].getD 4 0) = 0xFFFF ∨
         (([0x07, 0x31, 0x00, 0x18, 0x80, 0x00].getD 3 0) <<< 8 |||
          [0x07, 0x31, 0x00, 0x18, 0x80, 0x00].getD 4 0) = 0x7FFF) →
        r.temperature = some ((((([0x07, 0x31, 0x00, 0x18, 0x80, 0x00].getD 3 0) <<< 8 |||
          [0x07, 0x31, 0x00, 0x18, 0x80, 0x00].getD 4 0 : ℕ)) : ℚ) / 256)) ∧
      r.feature_flags = [0x07, 0x31, 0x00, 0x18, 0x80, 0x00].getD 5 0 :=
  parse_rv_status_sentinels [0x07, 0x31, 0x00, 0x18, 0x80, 0x00] (by decide) (by decide)

/-- C2: while a pending command is inside its window, a non-matching HvacZone
event is suppressed — `hvac_zones`, the `_hvac_zone_states` baseline, and the
pending entry are all unchanged. -/
theorem hvac_stale_echo_suppressed (s : CoordState) (z : HvacZone) (now : ℚ)
    (p : PendingHvacCommand)
    (hp : s.pending_hvac (z.table_id, z.device_id) = some p)
    (hage : now - p.sent_at ≤ hvac_window p)
    (hdiff : hvac_matches z p = false) :
    (∀ k, (handle_hvac_zone s z now).hvac_zones k = s.hvac_zones k) ∧
    (∀ k, (handle_hvac_zone s z now).hvac_zone_states k = s.hvac_zone_states k) ∧
    (handle_hvac_zone s z now).pending_hvac (z.table_id, z.device_id) = some p := by
  have hres : handle_hvac_zone s z now =
      { s with
        observed_hvac_capability :=
          upd s.observed_hvac_capability (z.table_id, z.device_id)
            (update_observed_hvac_capability
              (s.observed_hvac_capability (z.table_id, z.device_id)) z) } := by
    unfold handle_hvac_zone
    dsimp only
    rw [hp]
    dsimp only
    rw [if_pos hage, if_pos (by simp [hdiff])]
  refine ⟨fun k => ?_, fun k => ?_, ?_⟩
  · rw [hres]
  · rw [hres]
  · rw [hres]
    exact hp

/-- Witness for `hvac_stale_echo_suppressed`: a setpoint command pending
since `t = 0`, echo at `t = 3` (inside the 20 s window) with a different
`heat_mode`. -/
theorem hvac_stale_echo_suppressed_witness :
    (∀ k, (handle_hvac_zone c2S c2Z 3).hvac_zones k = c2S.hvac_zones k) ∧
    (∀ k, (handle_hvac_zone c2S c2Z 3).hvac_zone_states k = c2S.hvac_zone_states k) ∧
    (handle_hvac_zone c2S c2Z 3).pending_hvac (c2Z.table_id, c2Z.device_id) =
      some c2P :=
  hvac_stale_echo_suppressed c2S c2Z 3 c2P rfl
    (by norm_num [c2P, hvac_window, HVAC_SETPOINT_PENDING_WINDOW_S]) rfl

theorem retryTrace_none (n : Nat) (now : ℚ) : retryTrace n none now = (0, none) := by
  induction n with
  | zero => rfl
  | succ n ih =>
    unfold retryTrace
    rw [show do_retry_setpoint none now = (none, false) from rfl]
    dsimp only
    rw [ih]
    rfl

theorem do_retry_setpoint_give_up (now : ℚ) (p : PendingHvacCommand)
    (hsp : p.is_setpoint_change = true)
    (hrc : HVAC_SETPOINT_MAX_RETRIES ≤ p.retry_count) :
    do_retry_setpoint (some p) now = (none, false) := by
  unfold do_retry_setpoint
  dsimp only
  rw [if_neg (by simp [hsp]), if_pos hrc]

theorem do_retry_setpoint_send (now : ℚ) (p : PendingHvacCommand)
    (hsp : p.is_setpoint_change = true)
    (hrc : ¬ HVAC_SETPOINT_MAX_RETRIES ≤ p.retry_count) :
    do_retry_setpoint (some p) now =
      (some { p with retry_count := p.retry_count + 1, sent_at := now }, true) := by
  unfold do_retry_setpoint
  dsimp only
  rw [if_neg (by simp [hsp]), if_neg hrc]

theorem retryTrace_tx_le (n : Nat) (now : ℚ) :
    ∀ p : PendingHvacCommand, p.is_setpoint_change = true →
      (retryTrace n (some p) now).1 ≤ HVAC_SETPOINT_MAX_RETRIES - p.retry_count := by
  induction n with
  | zero =>
    intro p _
    simp [retryTrace]
  | succ n ih =>
    intro p hsp
    unfold retryTrace
    by_cases hrc : HVAC_SETPOINT_MAX_RETRIES ≤ p.retry_count
    · rw [do_retry_setpoint_give_up now p hsp hrc]
      dsimp only
      rw [retryTrace_none]
      simp
    · rw [do_retry_setpoint_send now p hsp hrc]
      dsimp only
      have h2 := ih { p with retry_count := p.retry_count + 1, sent_at := now }
        (by simpa using hsp)
      dsimp only at h2
      simp only [HVAC_SETPOINT_MAX_RETRIES] at h2 hrc ⊢
      simp only [if_true]
      omega

theorem retryTrace_rc_le (n : Nat) (now : ℚ) :
    ∀ p : PendingHvacCommand, p.is_setpoint_change = true →
      p.retry_count ≤ HVAC_SETPOINT_MAX_RETRIES →
      ∀ q, (retryTrace n (some p) now).2 = some q →
        q.retry_count ≤ HVAC_SETPOINT_MAX_RETRIES := by
  induction n with
  | zero =>
    intro p _ hle q hq
    injection hq with h
    rw [← h]
    exact hle
  | succ n ih =>
    intro p hsp hle q hq
    unfold retryTrace at hq
    by_cases hrc : HVAC_SETPOINT_MAX_RETRIES ≤ p.retry_count
    · rw [do_retry_setpoint_give_up now p hsp hrc] at hq
      dsimp only at hq
      rw [retryTrace_none] at hq
      exact absurd hq (by simp)
    · rw [do_retry_setpoint_send now p hsp hrc] at hq
      dsimp only at hq
      refine ih { p with retry_count := p.retry_count + 1, sent_at := now }
        (by simpa using hsp) ?_ q hq
      show p.retry_count + 1 ≤ HVAC_SETPOINT_MAX_RETRIES
      simp only [HVAC_SETPOINT_MAX_RETRIES] at hrc ⊢
      omega

/-- C3: a single setpoint command that is never confirmed is transmitted at
most 4 times in total (the original send plus the retry firings), the
pending entry's retry count never exceeds 3, and a retry firing that finds
`retry_count ≥ 3` removes the pending entry without transmitting. -/
theorem hvac_setpoint_retry_bound (p0 : PendingHvacCommand)
    (hsp : p0.is_setpoint_change = true) (h0 : p0.retry_count = 0) (now : ℚ) :
    (∀ n, 1 + (retryTrace n (some p0) now).1 ≤ 4) ∧
    (∀ n q, (retryTrace n (some p0) now).2 = some q →
      q.retry_count ≤ HVAC_SETPOINT_MAX_RETRIES) ∧
    (∀ q : PendingHvacCommand, q.is_setpoint_change = true →
      HVAC_SETPOINT_MAX_RETRIES ≤ q.retry_count →
      do_retry_setpoint (some q) now = (none, false)) := by
  refine ⟨?_, ?_, ?_⟩
  · intro n
    have h := retryTrace_tx_le n now p0 hsp
    rw [h0] at h
    simp only [HVAC_SETPOINT_MAX_RETRIES] at h ⊢
    omega
  · intro n q hq
    exact retryTrace_rc_le n now p0 hsp (by omega) q hq
  · intro q hq hrc
    exact do_retry_setpoint_give_up now q hq hrc

/-- Witness for `hvac_setpoint_retry_bound`. -/
theorem hvac_setpoint_retry_bound_witness :
    (∀ n, 1 + (retryTrace n (some c3P) 0).1 ≤ 4) ∧
    (∀ n q, (retryTrace n (some c3P) 0).2 = some q →
      q.retry_count ≤ HVAC_SETPOINT_MAX_RETRIES) ∧
    (∀ q : PendingHvacCommand, q.is_setpoint_change = true →
      HVAC_SETPOINT_MAX_RETRIES ≤ q.retry_count →
      do_retry_setpoint (some q) 0 = (none, false)) :=
  hvac_setpoint_retry_bound c3P rfl rfl 0

/-- C9: the reconnect backoff schedules `min(5·2^f, 120)` seconds and
increments the failure count: four successive disconnects from `f = 0` give
delays 5, 10, 20, 40 s; every delay is capped at 120 s (and from the fifth
failure on the cap is reached exactly); a successful reconnect resets the
count to 0. -/
theorem reconnect_backoff_schedule :
    backoffDelays 4 0 = [5, 10, 20, 40] ∧
    (∀ f, (schedule_reconnect f).1 ≤ RECONNECT_BACKOFF_CAP) ∧
    (∀ f, 5 ≤ f → (schedule_reconnect f).1 = RECONNECT_BACKOFF_CAP) ∧
    (∀ f, (schedule_reconnect f).2 = f + 1) ∧
    (∀ f, reconnect_success f = 0) := by
  refine ⟨?_, ?_, ?_, fun f => rfl, fun f => rfl⟩
  · have h0 : min (RECONNECT_BACKOFF_BASE * 2 ^ (0 : Nat)) RECONNECT_BACKOFF_CAP =
        (5 : ℚ) := by
      rw [min_eq_left (by norm_num [RECONNECT_BACKOFF_BASE, RECONNECT_BACKOFF_CAP])]
      norm_num [RECONNECT_BACKOFF_BASE]
    have h1 : min (RECONNECT_BACKOFF_BASE * 2 ^ (1 : Nat)) RECONNECT_BACKOFF_CAP =
        (10 : ℚ) := by
      rw [min_eq_left (by norm_num [RECONNECT_BACKOFF_BASE, RECONNECT_BACKOFF_CAP])]
      norm_num [RECONNECT_BACKOFF_BASE]
    have h2 : min (RECONNECT_BACKOFF_BASE * 2 ^ (2 : Nat)) RECONNECT_BACKOFF_CAP =
        (20 : ℚ) := by
      rw [min_eq_left (by norm_num [RECONNECT_BACKOFF_BASE, RECONNECT_BACKOFF_CAP])]
      norm_num [RECONNECT_BACKOFF_BASE]
    have h3 : min (RECONNECT_BACKOFF_BASE * 2 ^ (3 : Nat)) RECONNECT_BACKOFF_CAP =
        (40 : ℚ) := by
      rw [min_eq_left (by norm_num [RECONNECT_BACKOFF_BASE, RECONNECT_BACKOFF_CAP])]
      norm_num [RECONNECT_BACKOFF_BASE]
    show (schedule_reconnect 0).1 :: (schedule_reconnect 1).1 ::
        (schedule_reconnect 2).1 :: (schedule_reconnect 3).1 :: [] = [5, 10, 20, 40]
    unfold schedule_reconnect
    rw [show ((0 : Nat) + 1 : Nat) = 1 from rfl] at *
    exact by rw [h0, h1, h2, h3]
  · intro f
    exact min_le_right _ _
  · intro f hf
    apply min_eq_right
    have h32 : (2 : ℚ) ^ (5 : Nat) ≤ 2 ^ f := by
      apply pow_le_pow_right (by norm_num) hf
    have : (5 : ℚ) * 2 ^ (5 : Nat) ≤ 5 * 2 ^ f := by
      have h5 : (0 : ℚ) ≤ 5 := by norm_num
      exact mul_le_mul_of_nonneg_left h32 h5
    simp only [RECONNECT_BACKOFF_BASE, RECONNECT_BACKOFF_CAP]
    norm_num at this ⊢
    linarith

/-- Witness for `reconnect_backoff_schedule`: at the fifth consecutive
failure the scheduled delay is exactly the 120 s cap. -/
theorem reconnect_backoff_schedule_witness :
    (schedule_reconnect 5).1 = RECONNECT_BACKOFF_CAP :=
  reconnect_backoff_schedule.2.2.1 5 (by norm_num)

/-- C10: the lockout-clear throttle is consumed even when the call fails the
connection check: a disconnected call outside the window records the
timestamp and then errors, and any call in the following 5 s — even when
connected — is throttled and performs no write. -/
theorem clear_lockout_throttle_consumed (last now now2 : ℚ)
    (hout : ¬ (now - last < LOCKOUT_CLEAR_THROTTLE))
    (hwin : now2 - now < LOCKOUT_CLEAR_THROTTLE) :
    (∀ can, async_clear_lockout last now false can = (now, LockoutOutcome.notConnected)) ∧
    (∀ connected2 can2, async_clear_lockout now now2 connected2 can2 =
      (now, LockoutOutcome.throttled)) := by
  constructor
  · intro can
    unfold async_clear_lockout
    rw [if_neg hout, if_pos (by simp)]
  · intro c2 h2
    unfold async_clear_lockout
    rw [if_pos hwin]

/-- Witness for `clear_lockout_throttle_consumed`: failed disconnected call
at `t = 6`, connected call at `t = 8` throttled. -/
theorem clear_lockout_throttle_consumed_witness :
    (∀ can, async_clear_lockout 0 6 false can = (6, LockoutOutcome.notConnected)) ∧
    (∀ connected2 can2, async_clear_lockout 6 8 connected2 can2 =
      (6, LockoutOutcome.throttled)) :=
  clear_lockout_throttle_consumed 0 6 8
    (by norm_num [LOCKOUT_CLEAR_THROTTLE]) (by norm_num [LOCKOUT_CLEAR_THROTTLE])

end OneControl
